import Mathlib

/-!
Shallow embedding of the `mc173` server core, developed to check the
natural-language specification against the source.  Machine `f64` values are
modelled by exact rationals (`ℚ`), machine integers by `ℤ`/`ℕ` with explicit
masks where overflow matters.  Every definition is translated from the Rust
source; the few definitions whose source file is not part of the provided
slice are marked `Modelled from the spec:` in their doc comment.
-/

namespace MC173

/-- A 3-component vector of rationals, modelling `glam::DVec3` (`f64` fields
modelled by exact rationals). -/
@[ext]
structure DVec3 where
  x : ℚ
  y : ℚ
  z : ℚ
  deriving Repr, DecidableEq

namespace DVec3

/-- Component-wise addition, as `glam` implements `Add` for `DVec3`. -/
def add (a b : DVec3) : DVec3 := ⟨a.x + b.x, a.y + b.y, a.z + b.z⟩

instance : Add DVec3 := ⟨add⟩

end DVec3

/-- A 2-component vector of rationals, modelling `glam::Vec2` (used for the
look angles, yaw and pitch, stored in radians). -/
@[ext]
structure Vec2 where
  x : ℚ
  y : ℚ
  deriving Repr, DecidableEq

/-- Modelled from the spec: `mc173::item::ItemStack` (`mc173/src/item` is not
part of the provided slice).  The snapshot stores inventories by value-copy,
so only the record structure matters here: an item id, a stack size and a
damage value. -/
structure ItemStack where
  id : ℕ
  size : ℕ
  damage : ℕ
  deriving Repr, DecidableEq

/-- `ItemStack::EMPTY`, the empty-stack sentinel. -/
def ItemStack.EMPTY : ItemStack := ⟨0, 0, 0⟩

/-! ## Player snapshot save / restore (`mc173-server/src/server.rs`, `offline.rs`) -/

/-- `OfflinePlayer` (`mc173-server/src/offline.rs`): the saved snapshot of a
player that is not connected, keyed by username. -/
structure OfflinePlayer where
  world : String
  pos : DVec3
  look : Vec2
  main_inv : List ItemStack
  armor_inv : List ItemStack
  craft_inv : List ItemStack
  cursor_stack : ItemStack
  hand_slot : ℕ
  deriving Repr, DecidableEq

/-- `OfflinePlayer::new` (`offline.rs`): a fresh snapshot with empty
inventories at a given position. -/
def OfflinePlayer.new (world : String) (pos : DVec3) : OfflinePlayer :=
  { world := world
    pos := pos
    look := ⟨0, 0⟩
    main_inv := List.replicate 36 ItemStack.EMPTY
    armor_inv := List.replicate 4 ItemStack.EMPTY
    craft_inv := List.replicate 9 ItemStack.EMPTY
    cursor_stack := ItemStack.EMPTY
    hand_slot := 0 }

/-- The per-player state tracked by the server while the player is connected.
The fields used by `Server::save_player_state` and
`Server::restore_player_state` (`server.rs`). -/
structure ServerPlayer where
  username : String
  pos : DVec3
  look : Vec2
  main_inv : List ItemStack
  armor_inv : List ItemStack
  craft_inv : List ItemStack
  cursor_stack : ItemStack
  hand_slot : ℕ
  deriving Repr, DecidableEq

/-- `Server::save_player_state` (`server.rs` lines 292-313): the snapshot
records the world name, `player.pos + (0, 1.72, 0)`, the look angles, the
three inventories by value, the cursor stack and the hand slot. -/
def savePlayerState (worldName : String) (player : ServerPlayer) : OfflinePlayer :=
  { world := worldName
    pos := player.pos + ⟨0, 172/100, 0⟩
    look := player.look
    main_inv := player.main_inv
    armor_inv := player.armor_inv
    craft_inv := player.craft_inv
    cursor_stack := player.cursor_stack
    hand_slot := player.hand_slot }

/-- `Server::handle_login` (`server.rs` lines 211-219): the human entity for a
returning player is spawned with `base.pos = offline_player.pos`, with no
adjustment. -/
def loginSpawnPos (offline : OfflinePlayer) : DVec3 := offline.pos

/-- Modelled from the spec: `ServerPlayer::new` (`mc173-server/src/player.rs`
is not part of the provided slice).  Per the spec, the restored player takes
its pose and inventories from the `OfflinePlayer` snapshot; the pose equals
the entity spawn pose, which `handle_login` sets to `offline_player.pos`. -/
def ServerPlayer.new (username : String) (offline : OfflinePlayer) : ServerPlayer :=
  { username := username
    pos := offline.pos
    look := offline.look
    main_inv := offline.main_inv
    armor_inv := offline.armor_inv
    craft_inv := offline.craft_inv
    cursor_stack := offline.cursor_stack
    hand_slot := offline.hand_slot }

/-- The `pos` and `stance` fields of the `PositionLook` packet sent by
`Server::restore_player_state` (`server.rs` lines 315-325): the packet carries
`player.pos` unchanged together with `stance = player.pos.y + 1.62`.  (The
look angles are additionally scaled by `360 / TAU` on the wire; that unit
conversion is irrational and not needed by any claim, so the packet model
keeps the two position fields.) -/
def restorePositionLook (player : ServerPlayer) : DVec3 × ℚ :=
  (player.pos, player.pos.y + 162/100)

/-- One save-then-restore cycle: snapshot the player, then rebuild the
server-side player from the snapshot on the next login. -/
def saveRestore (worldName : String) (player : ServerPlayer) : ServerPlayer :=
  ServerPlayer.new player.username (savePlayerState worldName player)

/-! ## Living entity jump impulse (`mc173/src/entity/tick.rs`, `tick_living`) -/

/-- The fields of the entity `Base` record read and written by the jump
fragment of `tick_living` (`tick.rs` lines 432-440). -/
structure JumpBase where
  vel : DVec3
  vel_dirty : Bool
  in_water : Bool
  in_lava : Bool
  on_ground : Bool
  deriving Repr, DecidableEq

/-- The fields of the `Living` record read and written by `tick_living`
after the per-kind dispatch (`tick.rs` lines 432-444). -/
structure LivingAccel where
  jumping : Bool
  accel_strafing : ℚ
  accel_forward : ℚ
  yaw_velocity : ℚ
  deriving Repr, DecidableEq

/-- The jump-impulse and acceleration-decay fragment of `tick_living`
(`tick.rs` lines 432-444): when `jumping`, add `0.04` to `vel.y` in water or
lava, else add `0.42 + 0.1` on the ground (the source carries the comment
`FIXME: Added 0.1 to make it work`); then decay strafing and forward
acceleration by `0.98` and yaw velocity by `0.9`. -/
def tickLivingJumpAccel (base : JumpBase) (living : LivingAccel) :
    JumpBase × LivingAccel :=
  let base :=
    if living.jumping then
      if base.in_water || base.in_lava then
        { base with vel_dirty := true, vel := { base.vel with y := base.vel.y + 4/100 } }
      else if base.on_ground then
        { base with vel_dirty := true,
                    vel := { base.vel with y := base.vel.y + (42/100 + 1/10) } }
      else base
    else base
  (base,
    { living with
        accel_strafing := living.accel_strafing * (98/100)
        accel_forward := living.accel_forward * (98/100)
        yaw_velocity := living.yaw_velocity * (9/10) })

/-! ## Server login dispatch (`mc173-server/src/server.rs`) -/

/-- A 3-component integer vector, modelling `glam::IVec3`. -/
@[ext]
structure IVec3 where
  x : ℤ
  y : ℤ
  z : ℤ
  deriving Repr, DecidableEq

namespace IVec3

/-- Component-wise addition. -/
def add (a b : IVec3) : IVec3 := ⟨a.x + b.x, a.y + b.y, a.z + b.z⟩

instance : Add IVec3 := ⟨add⟩

end IVec3

/-- `DVec3::as_ivec3`: cast each `f64` component to `i32`, truncating toward
zero (integer division of numerator by denominator truncates toward zero). -/
def DVec3.as_ivec3 (v : DVec3) : IVec3 :=
  ⟨v.x.num / (v.x.den : ℤ), v.y.num / (v.y.den : ℤ), v.z.num / (v.z.den : ℤ)⟩

/-- `mc173::world::Dimension`. -/
inductive Dimension where
  | overworld
  | nether
  deriving Repr, DecidableEq

/-- `mc173::world::Weather`. -/
inductive Weather where
  | clear
  | rain
  | thunder
  deriving Repr, DecidableEq

/-- `ItemStack::to_non_empty`.  Modelled from the spec: the item module is not
part of the slice; an empty stack (the "empty-stack sentinel") maps to `none`,
any other stack to itself. -/
def ItemStack.to_non_empty (s : ItemStack) : Option ItemStack :=
  if s.size = 0 then none else some s

/-- `proto::InLoginPacket`: the fields read by `Server::handle_login`. -/
structure InLoginPacket where
  protocol_version : ℤ
  username : String
  deriving Repr, DecidableEq

/-- The outbound packets emitted on the login path (`proto::OutPacket`
variants referenced by `server.rs`). -/
inductive OutPacketM where
  | handshake (server : String)
  | login (entityId : ℕ) (randomSeed : ℤ) (dimension : ℤ)
  | spawnPosition (pos : IVec3)
  | updateTime (time : ℕ)
  | notification (reason : ℤ)
  | positionLook (pos : DVec3) (stance : ℚ) (onGround : Bool)
  | windowSetItem (windowId : ℕ) (slot : ℕ) (stack : Option ItemStack)
  | disconnect (reason : String)
  deriving Repr, DecidableEq

/-- `ClientState` (`server.rs` lines 377-389). -/
inductive ClientStateM where
  | handshaking
  | playing (worldIndex : ℕ) (playerIndex : ℕ)
  deriving Repr, DecidableEq

/-- The human entity record spawned by `handle_login` (`e::Human::new_with`,
`server.rs` lines 211-219): the fields that closure sets. -/
structure HumanEntity where
  id : ℕ
  pos : DVec3
  look : Vec2
  persistent : Bool
  can_pickup : Bool
  artificial : Bool
  health : ℕ
  username : String
  deriving Repr, DecidableEq

/-- The per-world server state (`WorldState` in `server.rs` plus the
`ServerWorld` fields `handle_login` reads: name, seed, dimension, time,
weather, and the world's entity table). -/
structure ServerWorldM where
  name : String
  seed : ℤ
  dimension : Dimension
  time : ℕ
  weather : Weather
  entities : List HumanEntity
  nextEntityId : ℕ
  playerEntityIds : List ℕ
  players : List ServerPlayer
  deriving Repr, DecidableEq

/-- The server state (`Server` in `server.rs`): clients map, worlds list,
offline players database, plus the stream of outbound packets handed to
`self.net.send` (the network handle itself is out of scope; the model records
what is sent, in order). -/
structure ServerM where
  clients : List (ℕ × ClientStateM)
  worlds : List ServerWorldM
  offlinePlayers : List (String × OfflinePlayer)
  sent : List (ℕ × OutPacketM)
  deriving Repr, DecidableEq

/-- Association-list lookup (model of `HashMap::get`). -/
def assocGet {K V : Type} [DecidableEq K] : List (K × V) → K → Option V
  | [], _ => none
  | (k, v) :: rest, key => if key = k then some v else assocGet rest key

/-- Association-list insert-or-replace (model of `HashMap::insert`). -/
def assocInsert {K V : Type} [DecidableEq K] : List (K × V) → K → V → List (K × V)
  | [], key, val => [(key, val)]
  | (k, v) :: rest, key, val =>
    if key = k then (key, val) :: rest else (k, v) :: assocInsert rest key val

/-- Modelled from the spec: `config::SPAWN_POS` (the CLI/config module is out
of scope; the core consumes a `spawn_pos : DVec3`).  The concrete value is
irrelevant to every claim. -/
def SPAWN_POS : DVec3 := ⟨0, 67, 0⟩

/-- `Server::send_disconnect` (`server.rs` lines 361-374): if the client is
currently playing, persist its snapshot first; then send a `Disconnect`
packet with the given reason. -/
def sendDisconnect (s : ServerM) (client : ℕ) (reason : String) : ServerM :=
  let s :=
    match assocGet s.clients client with
    | some (ClientStateM.playing worldIndex playerIndex) =>
      match s.worlds[worldIndex]? with
      | some w =>
        match w.players[playerIndex]? with
        | some p =>
          { s with offlinePlayers :=
              assocInsert s.offlinePlayers p.username (savePlayerState w.name p) }
        | none => s
      | none => s
    | _ => s
  { s with sent := s.sent ++ [(client, OutPacketM.disconnect reason)] }

/-- The `WindowSetItem` packets of `Server::restore_player_state`
(`server.rs` lines 326-358): crafting at window slots `1..=4`, armor at
`5..=8`, then the 36 main slots at `9..=44`, where the main inventory index
used for window slot `i + 9` is `(i + 9) % 36`. -/
def restoreWindowItems (player : ServerPlayer) : List OutPacketM :=
  ((List.range 4).map fun i =>
    OutPacketM.windowSetItem 0 (i + 1)
      ((player.craft_inv.getD i ItemStack.EMPTY).to_non_empty)) ++
  ((List.range 4).map fun i =>
    OutPacketM.windowSetItem 0 (i + 5)
      ((player.armor_inv.getD i ItemStack.EMPTY).to_non_empty)) ++
  ((List.range 36).map fun i =>
    OutPacketM.windowSetItem 0 (i + 9)
      ((player.main_inv.getD ((i + 9) % 36) ItemStack.EMPTY).to_non_empty))

/-- `Server::restore_player_state` (`server.rs` lines 315-359): the initial
`PositionLook` (pos unchanged, `stance = pos.y + 1.62`, `on_ground = false`)
followed by the window-0 item packets. -/
def restorePlayerPackets (player : ServerPlayer) : List OutPacketM :=
  OutPacketM.positionLook player.pos (player.pos.y + 162/100) false
    :: restoreWindowItems player

/-- `Server::handle_login` (`server.rs` lines 187-290).  Returns `none` where
the source would panic (`expect`/indexing); otherwise the updated server
state.  A `protocol_version` other than 14 sends one `Disconnect` and leaves
everything else untouched. -/
def handleLogin (s : ServerM) (client : ℕ) (packet : InLoginPacket) : Option ServerM :=
  if packet.protocol_version ≠ 14 then
    some (sendDisconnect s client "Protocol version mismatch!")
  else
    match s.worlds[0]? with
    | none => none
    | some world0 =>
      -- `entry(..).or_insert(..)`: fetch the offline player, creating a fresh
      -- one on first login.
      let offline := (assocGet s.offlinePlayers packet.username).getD
        (OfflinePlayer.new world0.name SPAWN_POS)
      let offlinePlayers := assocInsert s.offlinePlayers packet.username offline
      -- Locate the target world by the offline player's world name
      -- (`expect("invalid offline player world name")`).
      match (List.range s.worlds.length).find? (fun i =>
          match s.worlds[i]? with
          | some w => w.name = offline.world
          | none => false) with
      | none => none
      | some worldIndex =>
        match s.worlds[worldIndex]? with
        | none => none
        | some w =>
          -- Spawn the human entity at the offline pose and mark it as a
          -- player entity.
          let entityId := w.nextEntityId
          let entity : HumanEntity :=
            { id := entityId
              pos := offline.pos
              look := offline.look
              persistent := false
              can_pickup := true
              artificial := true
              health := 200
              username := packet.username }
          let w := { w with
            entities := w.entities ++ [entity]
            nextEntityId := w.nextEntityId + 1
            playerEntityIds := w.playerEntityIds ++ [entityId] }
          -- Login confirmation, spawn position, time, and a rain
          -- notification when the weather is not clear.
          let sent := s.sent ++
            [(client, OutPacketM.login entityId w.seed
                (match w.dimension with
                 | Dimension.overworld => 0
                 | Dimension.nether => -1)),
             (client, OutPacketM.spawnPosition SPAWN_POS.as_ivec3),
             (client, OutPacketM.updateTime w.time)] ++
            (if w.weather ≠ Weather.clear
              then [(client, OutPacketM.notification 1)] else []) ++
          -- `restore_player_state` for the new `ServerPlayer`, then insert
          -- the player tracker and switch the client to `Playing`.
            ((restorePlayerPackets (ServerPlayer.new packet.username offline)).map
              (fun p => (client, p)))
          let playerIndex := w.players.length
          let w := { w with
            players := w.players ++ [ServerPlayer.new packet.username offline] }
          some { s with
            worlds := s.worlds.set worldIndex w
            offlinePlayers := offlinePlayers
            sent := sent
            clients := assocInsert s.clients client
              (ClientStateM.playing worldIndex playerIndex) }

/-! ## The legacy PRNG (`mc173::util::JavaRandom`) -/

/-- Modelled from the spec: the linear congruential generator with the legacy
parameters (`mc173/src/util`/`rand` is not part of the slice).  The state is
the 48-bit seed. -/
structure JavaRandom where
  seed : ℕ
  deriving Repr, DecidableEq

namespace JavaRandom

/-- The LCG multiplier `0x5DEECE66D`. -/
def MULTIPLIER : ℕ := 0x5DEECE66D

/-- The LCG increment `0xB`. -/
def ADDEND : ℕ := 0xB

/-- The LCG modulus `2^48`. -/
def MASK : ℕ := 2 ^ 48

/-- Seed the generator: the initial state is `seed XOR multiplier`, kept to
48 bits. -/
def new (seed : ℤ) : JavaRandom := ⟨((Int.xor seed (MULTIPLIER : ℤ)) % (MASK : ℤ)).toNat⟩

/-- Advance the LCG and return the top `bits` bits of the new 48-bit state.
For `bits ≤ 31` (every use in the embedded code) the Java `int` result is
non-negative and equals this natural number. -/
def next (r : JavaRandom) (bits : ℕ) : ℕ × JavaRandom :=
  let s := (r.seed * MULTIPLIER + ADDEND) % MASK
  (s >>> (48 - bits), ⟨s⟩)

/-- `next_int_bounded(n)` for a power-of-two bound: the fast path
`(n * next(31)) >> 31`.  The embedded generator code only calls the bounded
sampler with `n = 4` and `n = 2`, both powers of two; the rejection path for
other bounds is not needed by any claim. -/
def nextIntPow2 (r : JavaRandom) (n : ℕ) : ℕ × JavaRandom :=
  let (b, r) := r.next 31
  ((n * b) >>> 31, r)

/-- `next_float`: 24 bits over `2^24` (exact in `f32`, hence exact here). -/
def nextFloat (r : JavaRandom) : ℚ × JavaRandom :=
  let (b, r) := r.next 24
  ((b : ℚ) / 2 ^ 24, r)

/-- `next_double`: 26 high bits and 27 low bits over `2^53` (exact in
`f64`, hence exact here). -/
def nextDouble (r : JavaRandom) : ℚ × JavaRandom :=
  let (hi, r) := r.next 26
  let (lo, r) := r.next 27
  (((hi * 2 ^ 27 + lo : ℕ) : ℚ) / 2 ^ 53, r)

/-- `next_dvec3`: three consecutive doubles for x, y, z. -/
def nextDVec3 (r : JavaRandom) : DVec3 × JavaRandom :=
  let x := r.nextDouble
  let y := x.2.nextDouble
  let z := y.2.nextDouble
  (⟨x.1, y.1, z.1⟩, z.2)

end JavaRandom

/-! ## Bounding boxes and the collision step (`mc173/src/entity/tick.rs`) -/

/-- `mc173::geom::BoundingBox` (axis-aligned, `f64` corners). -/
@[ext]
structure Box where
  min : DVec3
  max : DVec3
  deriving Repr, DecidableEq

namespace Box

/-- `bb += delta`: translate both corners. -/
def addVec (b : Box) (d : DVec3) : Box := ⟨b.min + d, b.max + d⟩

/-- Modelled from the spec: `BoundingBox::expand(delta)` — grow the box
toward the displacement, per axis, producing the swept volume queried for
collision candidates. -/
def expand (b : Box) (d : DVec3) : Box :=
  { min := ⟨if d.x < 0 then b.min.x + d.x else b.min.x,
            if d.y < 0 then b.min.y + d.y else b.min.y,
            if d.z < 0 then b.min.z + d.z else b.min.z⟩
    max := ⟨if d.x < 0 then b.max.x else b.max.x + d.x,
            if d.y < 0 then b.max.y else b.max.y + d.y,
            if d.z < 0 then b.max.z else b.max.z + d.z⟩ }

/-- Modelled from the spec: `BoundingBox::calc_y_delta(bb, dy)` — `c` is the
candidate box, `bb` the moving box.  When the two boxes strictly overlap in
X and Z, the Y displacement is clamped to the largest non-penetrating
value. -/
def calcYDelta (c : Box) (bb : Box) (dy : ℚ) : ℚ :=
  if c.min.x < bb.max.x ∧ bb.min.x < c.max.x ∧ c.min.z < bb.max.z ∧ bb.min.z < c.max.z then
    if 0 < dy ∧ bb.max.y ≤ c.min.y then Min.min dy (c.min.y - bb.max.y)
    else if dy < 0 ∧ c.max.y ≤ bb.min.y then Max.max dy (c.max.y - bb.min.y)
    else dy
  else dy

/-- Modelled from the spec: `BoundingBox::calc_x_delta(bb, dx)` (overlap
checked on Y and Z). -/
def calcXDelta (c : Box) (bb : Box) (dx : ℚ) : ℚ :=
  if c.min.y < bb.max.y ∧ bb.min.y < c.max.y ∧ c.min.z < bb.max.z ∧ bb.min.z < c.max.z then
    if 0 < dx ∧ bb.max.x ≤ c.min.x then Min.min dx (c.min.x - bb.max.x)
    else if dx < 0 ∧ c.max.x ≤ bb.min.x then Max.max dx (c.max.x - bb.min.x)
    else dx
  else dx

/-- Modelled from the spec: `BoundingBox::calc_z_delta(bb, dz)` (overlap
checked on X and Y). -/
def calcZDelta (c : Box) (bb : Box) (dz : ℚ) : ℚ :=
  if c.min.x < bb.max.x ∧ bb.min.x < c.max.x ∧ c.min.y < bb.max.y ∧ bb.min.y < c.max.y then
    if 0 < dz ∧ bb.max.z ≤ c.min.z then Min.min dz (c.min.z - bb.max.z)
    else if dz < 0 ∧ c.max.z ≤ bb.min.z then Max.max dz (c.max.z - bb.min.z)
    else dz
  else dz

end Box

/-- The fields of the entity `Base` record used by the physics step and the
item tick (`tick.rs`). -/
structure Base where
  pos : DVec3
  bb : Box
  vel : DVec3
  vel_dirty : Bool
  on_ground : Bool
  in_lava : Bool
  no_clip : Bool
  fall_distance : ℚ
  lifetime : ℕ
  heightOffset : ℚ
  rand : JavaRandom

/-- Modelled from the spec: `Base::update_pos_from_bounding_box` — the
inverse of the bb-from-pos formula `bb.center.xz = pos.xz` and
`bb.min.y = pos.y - size.height_offset`. -/
def updatePosFromBB (base : Base) : Base :=
  { base with pos :=
      ⟨(base.bb.min.x + base.bb.max.x) / 2,
       base.bb.min.y + base.heightOffset,
       (base.bb.min.z + base.bb.max.z) / 2⟩ }

/-- The Y-axis resolution of `tick_base_pos`: reduce `dy` against every
candidate box (relative to the unmoved bounding box `bb`). -/
def resolveY (candidates : List Box) (bb : Box) (dy : ℚ) : ℚ :=
  candidates.foldl (fun d c => c.calcYDelta bb d) dy

/-- The X-axis resolution of `tick_base_pos`: reduce `dx` against every
candidate box (relative to the bounding box already moved on Y). -/
def resolveX (candidates : List Box) (bb : Box) (dx : ℚ) : ℚ :=
  candidates.foldl (fun d c => c.calcXDelta bb d) dx

/-- The Z-axis resolution of `tick_base_pos`: reduce `dz` against every
candidate box (relative to the bounding box already moved on Y and X). -/
def resolveZ (candidates : List Box) (bb : Box) (dz : ℚ) : ℚ :=
  candidates.foldl (fun d c => c.calcZDelta bb d) dz

/-- `tick_base_pos` (`tick.rs` lines 178-269), the collision step.  The
candidate boxes (every solid block box and every boat box intersecting
`bb.expand(delta)`) are gathered by the caller through the world's iterators
(which live outside this slice) and passed as a list.  With `no_clip` the
box is simply translated; otherwise the displacement is resolved one axis at
a time — Y first, then X, then Z — the step branch's condition is computed
but its body is left `TODO` in the source, `on_ground` is set iff the Y axis
collided downward, `fall_distance` is updated, and the velocity of every
collided axis is zeroed with `vel_dirty` set.  Finally `pos` is recomputed
from the bounding box. -/
def tickBasePos (candidates : List Box) (base : Base) (delta : DVec3)
    (stepHeight : ℚ) : Base :=
  if base.no_clip then
    updatePosFromBB { base with bb := base.bb.addVec delta }
  else
    let dy := resolveY candidates base.bb delta.y
    let bb1 := base.bb.addVec ⟨0, dy, 0⟩
    let dx := resolveX candidates bb1 delta.x
    let bb2 := bb1.addVec ⟨dx, 0, 0⟩
    let dz := resolveZ candidates bb2 delta.z
    let bb3 := bb2.addVec ⟨0, 0, dz⟩
    let collidedX := decide (delta.x ≠ dx)
    let collidedY := decide (delta.y ≠ dy)
    let collidedZ := decide (delta.z ≠ dz)
    let onGround := collidedY && decide (delta.y < 0)
    -- `if step_height > 0.0 && on_ground && (collided_x || collided_z)`:
    -- the body is `// TODO: todo!("handle step motion");` in the source, so
    -- the condition has no effect on the result.
    let _stepCondition :=
      decide (0 < stepHeight) && (onGround && (collidedX || collidedZ))
    let fallDistance :=
      if onGround then 0
      else if dy < 0 then base.fall_distance - dy
      else base.fall_distance
    updatePosFromBB
      { base with
          bb := bb3
          on_ground := onGround
          fall_distance := fallDistance
          vel := ⟨if collidedX then 0 else base.vel.x,
                  if collidedY then 0 else base.vel.y,
                  if collidedZ then 0 else base.vel.z⟩
          vel_dirty := base.vel_dirty || collidedX || collidedY || collidedZ }

/-- The resolved Y displacement of the collision step (first axis). -/
def tickDy (candidates : List Box) (base : Base) (delta : DVec3) : ℚ :=
  resolveY candidates base.bb delta.y

/-- The bounding box after the Y move of the collision step. -/
def tickBB1 (candidates : List Box) (base : Base) (delta : DVec3) : Box :=
  base.bb.addVec ⟨0, tickDy candidates base delta, 0⟩

/-- The resolved X displacement of the collision step (second axis, against
the box already moved on Y). -/
def tickDx (candidates : List Box) (base : Base) (delta : DVec3) : ℚ :=
  resolveX candidates (tickBB1 candidates base delta) delta.x

/-- The bounding box after the Y and X moves of the collision step. -/
def tickBB2 (candidates : List Box) (base : Base) (delta : DVec3) : Box :=
  (tickBB1 candidates base delta).addVec ⟨tickDx candidates base delta, 0, 0⟩

/-- The resolved Z displacement of the collision step (third axis, against
the box already moved on Y and X). -/
def tickDz (candidates : List Box) (base : Base) (delta : DVec3) : ℚ :=
  resolveZ candidates (tickBB2 candidates base delta) delta.z

/-- Collision candidates for the step scenario: a large ground slab with top
face `y = 0`, and a quarter-high wall starting at `x = 5/4` (low enough that
a `0.5` step would clear it). -/
def stepScenarioCands : List Box :=
  [⟨⟨-10, -1, -10⟩, ⟨10, 0, 10⟩⟩, ⟨⟨5/4, 0, -10⟩, ⟨9/4, 1/4, 10⟩⟩]

/-- The entity of the step scenario: unit cube resting on the ground slab. -/
def stepScenarioBase : Base :=
  { pos := ⟨1/2, 0, 1/2⟩
    bb := ⟨⟨0, 0, 0⟩, ⟨1, 1, 1⟩⟩
    vel := ⟨1/2, -1/25, 0⟩
    vel_dirty := false
    on_ground := false
    in_lava := false
    no_clip := false
    fall_distance := 0
    lifetime := 0
    heightOffset := 0
    rand := ⟨0⟩ }

/-- The displacement of the step scenario: forward on X while settling on
the ground. -/
def stepScenarioDelta : DVec3 := ⟨1/2, -1/25, 0⟩

/-! ## Item entity tick (`mc173/src/entity/tick.rs`, `tick_item`) -/

/-- `Item` entity data used by `tick_item`. -/
structure ItemData where
  frozen_ticks : ℕ
  deriving Repr, DecidableEq

/-- Modelled from the spec: the per-block slipperiness table
(`block::material::get_slipperiness` is not part of the slice): ice (id 79)
is slippery at `0.98`; every other block uses the default `0.6`. -/
def getSlipperiness (id : ℕ) : ℚ := if id = 79 then 98/100 else 6/10

/-- `mc173::util::Face` (modelled from the spec; the util module is not part
of the slice): the six block faces, negative before positive per axis. -/
inductive Face where
  | negY
  | posY
  | negX
  | posX
  | negZ
  | posZ
  deriving Repr, DecidableEq

namespace Face

/-- `Face::ALL`. -/
def ALL : List Face := [negY, posY, negX, posX, negZ, posZ]

/-- `Face::delta`: the unit offset toward the face. -/
def delta : Face → IVec3
  | negY => ⟨0, -1, 0⟩
  | posY => ⟨0, 1, 0⟩
  | negX => ⟨-1, 0, 0⟩
  | posX => ⟨1, 0, 0⟩
  | negZ => ⟨0, 0, -1⟩
  | posZ => ⟨0, 0, 1⟩

/-- `Face::axis_index`: 0 for X, 1 for Y, 2 for Z. -/
def axisIndex : Face → ℕ
  | negX | posX => 0
  | negY | posY => 1
  | negZ | posZ => 2

/-- `Face::is_pos`. -/
def isPos : Face → Bool
  | posX | posY | posZ => true
  | _ => false

end Face

/-- Component access by axis index (`DVec3` indexing in `glam`). -/
def DVec3.axis (v : DVec3) : ℕ → ℚ
  | 0 => v.x
  | 1 => v.y
  | _ => v.z

/-- Component update by axis index. -/
def DVec3.setAxis (v : DVec3) (i : ℕ) (q : ℚ) : DVec3 :=
  match i with
  | 0 => ⟨q, v.y, v.z⟩
  | 1 => ⟨v.x, q, v.z⟩
  | _ => ⟨v.x, v.y, q⟩

/-- Floor of each component (`DVec3::floor` followed by `as_ivec3`, exact on
the floored value). -/
def DVec3.floorIVec3 (v : DVec3) : IVec3 := ⟨⌊v.x⌋, ⌊v.y⌋, ⌊v.z⌋⟩

/-- `IVec3` back to `DVec3` (`as_dvec3`). -/
def IVec3.as_dvec3 (v : IVec3) : DVec3 := ⟨(v.x : ℚ), (v.y : ℚ), (v.z : ℚ)⟩

/-- The opaque-block bump of `tick_item` (`tick.rs` lines 291-319): find the
non-opaque face with the smallest exit distance (Rust `min_by` keeps the last
minimum among ties) and push the item out through it with impulse
`rand.next_float() * 0.2 + 0.1`. -/
def itemBump (isOpaque : IVec3 → Bool) (base : Base) (blockPos : IVec3) : Base :=
  let delta := base.pos + ⟨-(blockPos.x : ℚ), -(blockPos.y : ℚ), -(blockPos.z : ℚ)⟩
  let withDist := (Face.ALL.filter fun face => !isOpaque (blockPos + face.delta)).map
    fun face =>
      let d := delta.axis face.axisIndex
      (face, if face.isPos then 1 - d else d)
  let bumpFace := withDist.foldl
    (fun best e =>
      match best with
      | none => some e
      | some b => if e.2 ≤ b.2 then some e else some b)
    none
  match bumpFace with
  | some (face, _) =>
    let (f, rand) := base.rand.nextFloat
    let accel := f * (2/10) + 1/10
    { base with
        rand := rand
        vel := base.vel.setAxis face.axisIndex (if face.isPos then accel else -accel) }
  | none => base

/-- The gravity line of `tick_item` (`tick.rs` lines 279-280):
`base.vel_dirty = true; base.vel.y -= 0.04`. -/
def itemGravity (base : Base) : Base :=
  { base with vel_dirty := true,
              vel := { base.vel with y := base.vel.y - 4/100 } }

/-- The lava jitter of `tick_item` (`tick.rs` lines 284-288): while in lava,
`vel.y = 0.2` and the horizontal velocity is random jitter. -/
def itemLavaJitter (base : Base) : Base :=
  if base.in_lava then
    let (f1, rand) := base.rand.nextFloat
    let (f2, rand) := rand.nextFloat
    let (f3, rand) := rand.nextFloat
    let (f4, rand) := rand.nextFloat
    { base with rand := rand,
                vel := ⟨(f1 - f2) * (2/10), 2/10, (f3 - f4) * (2/10)⟩ }
  else base

/-- The ground-friction tail of `tick_item` (`tick.rs` lines 324-351): pick
the slipperiness (`0.98` aerial, else the ground block's slipperiness, or
`0.1 * 0.1 * 58.8` over air), scale the velocity, and halve-and-flip `vel.y`
when on the ground. -/
def itemFrictionStep (getBlock : IVec3 → Option (ℕ × ℕ)) (base : Base) : Base :=
  let slipperiness : ℚ :=
    if base.on_ground then
      let groundPos : IVec3 := ⟨⌊base.pos.x⌋, ⌊base.bb.min.y⌋ - 1, ⌊base.pos.z⌋⟩
      match getBlock groundPos with
      | some (groundId, _) =>
        if groundId ≠ 0 then getSlipperiness groundId else (1/10) * (1/10) * (588/10)
      | none => (1/10) * (1/10) * (588/10)
    else 98/100
  let base := { base with
    vel := ⟨base.vel.x * slipperiness, base.vel.y * (98/100), base.vel.z * slipperiness⟩ }
  if base.on_ground then
    { base with vel := { base.vel with y := base.vel.y * (-(1/2)) } }
  else base

/-- `tick_item` (`tick.rs` lines 272-358), as the composition of its
contiguous fragments: decrement `frozen_ticks`, gravity, lava jitter, the
opaque-block bump, the collision move (`tick_base_pos` with `step_height =
0`), ground friction, and the 6000-tick despawn.  `candFn` stands for the
world's `iter_blocks_boxes_colliding` query that `tick_base_pos` performs on
the swept box (the world iterators live outside this slice); `getBlock` and
`isOpaque` stand for `World::get_block` and `World::is_block_opaque_cube`.
Returns the updated base and item data, and whether the entity is removed. -/
def tickItem (getBlock : IVec3 → Option (ℕ × ℕ)) (isOpaque : IVec3 → Bool)
    (candFn : Box → List Box) (base : Base) (item : ItemData) :
    Base × ItemData × Bool :=
  let item := if item.frozen_ticks > 0 then ⟨item.frozen_ticks - 1⟩ else item
  let base := itemGravity base
  let base := itemLavaJitter base
  let blockPos := base.pos.floorIVec3
  let base := if isOpaque blockPos then itemBump isOpaque base blockPos else base
  let base := tickBasePos (candFn (base.bb.expand base.vel)) base base.vel 0
  let base := itemFrictionStep getBlock base
  (base, item, decide (base.lifetime ≥ 6000))

/-- The ground block box of the item-landing scenario (top face `y = 65`). -/
def itemScenarioGround : Box := ⟨⟨-8, 64, -8⟩, ⟨8, 65, 8⟩⟩

/-- The item entity of the landing scenario: a `0.25` cube hovering `0.02`
above the ground, falling at the after-one-tick velocity `-0.0392`. -/
def itemScenarioBase : Base :=
  { pos := ⟨0, 6502/100 + 1/8, 0⟩
    bb := ⟨⟨-(1/8), 6502/100, -(1/8)⟩, ⟨1/8, 6527/100, 1/8⟩⟩
    vel := ⟨0, -(49/1250), 0⟩
    vel_dirty := true
    on_ground := false
    in_lava := false
    no_clip := false
    fall_distance := 0
    lifetime := 1
    heightOffset := 1/8
    rand := ⟨0⟩ }

/-- The block map of the landing scenario: stone (id 1, slipperiness 0.6)
filling the ground box column queried by the friction lookup. -/
def itemScenarioGetBlock : IVec3 → Option (ℕ × ℕ) :=
  fun p => if p.y = 64 then some (1, 0) else none

/-- The candidate query of the landing scenario: the ground box. -/
def itemScenarioCands : Box → List Box := fun _ => [itemScenarioGround]

/-! ## Block interaction (`mc173/src/world/interact.rs`) -/

namespace block

/-- Modelled from the spec: block registry ids (the `block` id table is not
part of the slice).  Only distinctness of the ids matters here; the values
are the legacy ones. -/
def BUTTON : ℕ := 77

/-- Lever block id. -/
def LEVER : ℕ := 69

/-- Trapdoor block id. -/
def TRAPDOOR : ℕ := 96

/-- Iron door block id. -/
def IRON_DOOR : ℕ := 71

/-- Wooden door block id. -/
def WOOD_DOOR : ℕ := 64

/-- Redstone repeater (unpowered) block id. -/
def REPEATER : ℕ := 93

/-- Redstone repeater (powered) block id. -/
def REPEATER_LIT : ℕ := 94

/-- Modelled from the spec: `block::lever::is_active` — the lever metadata is
an opaque `u8` with an active bit (bit 3, `0x8`). -/
def leverIsActive (m : ℕ) : Bool := m &&& 8 ≠ 0

/-- Modelled from the spec: `block::lever::set_active`. -/
def leverSetActive (active : Bool) (m : ℕ) : ℕ :=
  if active then m ||| 8 else m &&& 0xF7

/-- Modelled from the spec: `block::button::is_active` (active bit `0x8`). -/
def buttonIsActive (m : ℕ) : Bool := m &&& 8 ≠ 0

/-- Modelled from the spec: `block::button::set_active`. -/
def buttonSetActive (active : Bool) (m : ℕ) : ℕ :=
  if active then m ||| 8 else m &&& 0xF7

/-- Modelled from the spec: `block::trapdoor::is_open` (open bit `0x4`). -/
def trapdoorIsOpen (m : ℕ) : Bool := m &&& 4 ≠ 0

/-- Modelled from the spec: `block::trapdoor::set_open`. -/
def trapdoorSetOpen (open_ : Bool) (m : ℕ) : ℕ :=
  if open_ then m ||| 4 else m &&& 0xFB

/-- Modelled from the spec: `block::door::is_upper` (upper bit `0x8`). -/
def doorIsUpper (m : ℕ) : Bool := m &&& 8 ≠ 0

/-- Modelled from the spec: `block::door::set_upper`. -/
def doorSetUpper (upper : Bool) (m : ℕ) : ℕ :=
  if upper then m ||| 8 else m &&& 0xF7

/-- Modelled from the spec: `block::door::is_open` (open bit `0x4`). -/
def doorIsOpen (m : ℕ) : Bool := m &&& 4 ≠ 0

/-- Modelled from the spec: `block::door::set_open`. -/
def doorSetOpen (open_ : Bool) (m : ℕ) : ℕ :=
  if open_ then m ||| 4 else m &&& 0xFB

/-- Modelled from the spec: `block::repeater::get_delay` (delay in the upper
two metadata bits). -/
def repeaterGetDelay (m : ℕ) : ℕ := m >>> 2

/-- Modelled from the spec: `block::repeater::set_delay`. -/
def repeaterSetDelay (delay m : ℕ) : ℕ := (m &&& 3) ||| (delay <<< 2)

end block

/-- The world state visible to the interaction handlers: a block map from
absolute positions to `(id, metadata)` pairs (a position in no loaded chunk
maps to `none`) and the scheduled-tick list.  Neighbor-change notifications
of `set_block_notify` reach adjacent blocks only; the adjacent blocks'
reactions live outside the provided slice and outside this model. -/
structure WorldI where
  blocks : IVec3 → Option (ℕ × ℕ)
  scheduledTicks : List (IVec3 × ℕ × ℕ)

/-- `World::set_block_notify`, restricted to its effect on the block map:
write `(id, metadata)` at `pos` in place. -/
def setBlockNotify (w : WorldI) (pos : IVec3) (id m : ℕ) : WorldI :=
  { w with blocks := fun q => if q = pos then some (id, m) else w.blocks q }

/-- `World::schedule_tick`.  Modelled from the spec: insert `(pos, id)` with
the given delay into the pending tick schedule; duplicates with the same
`(pos, id)` are absorbed. -/
def scheduleTick (w : WorldI) (pos : IVec3) (id delay : ℕ) : WorldI :=
  if w.scheduledTicks.any (fun e => decide (e.1 = pos) && decide (e.2.1 = id)) then w
  else { w with scheduledTicks := w.scheduledTicks ++ [(pos, id, delay)] }

/-- `World::interact_button` (`interact.rs` lines 39-46). -/
def interactButton (w : WorldI) (pos : IVec3) (m : ℕ) : WorldI × Bool :=
  if !block.buttonIsActive m then
    let m := block.buttonSetActive true m
    let w := setBlockNotify w pos block.BUTTON m
    (scheduleTick w pos block.BUTTON 20, true)
  else (w, true)

/-- `World::interact_lever` (`interact.rs` lines 48-53): flip the active bit
and write the block back. -/
def interactLever (w : WorldI) (pos : IVec3) (m : ℕ) : WorldI × Bool :=
  let active := block.leverIsActive m
  let m := block.leverSetActive (!active) m
  (setBlockNotify w pos block.LEVER m, true)

/-- `World::interact_trapdoor` (`interact.rs` lines 55-60). -/
def interactTrapdoor (w : WorldI) (pos : IVec3) (m : ℕ) : WorldI × Bool :=
  let active := block.trapdoorIsOpen m
  let m := block.trapdoorSetOpen (!active) m
  (setBlockNotify w pos block.TRAPDOOR m, true)

/-- `World::interact_wood_door` (`interact.rs` lines 62-84).  The source
recursion from an upper half to the block below is bounded by the world
height (`get_block` is `none` outside loaded chunks); the model's block map
is an arbitrary function, so the recursion carries explicit fuel. -/
def interactWoodDoor : ℕ → WorldI → IVec3 → ℕ → WorldI × Bool
  | 0, w, _, _ => (w, true)
  | fuel + 1, w, pos, m =>
    if block.doorIsUpper m then
      match w.blocks (pos + ⟨0, -1, 0⟩) with
      | some (id, m2) =>
        if id = block.WOOD_DOOR then
          let (w, _) := interactWoodDoor fuel w (pos + ⟨0, -1, 0⟩) m2
          (w, true)
        else (w, true)
      | none => (w, true)
    else
      let open_ := block.doorIsOpen m
      let m := block.doorSetOpen (!open_) m
      let w := setBlockNotify w pos block.WOOD_DOOR m
      match w.blocks (pos + ⟨0, 1, 0⟩) with
      | some (id, _) =>
        if id = block.WOOD_DOOR then
          (setBlockNotify w (pos + ⟨0, 1, 0⟩) block.WOOD_DOOR
            (block.doorSetUpper true m), true)
        else (w, true)
      | none => (w, true)

/-- `World::interact_repeater` (`interact.rs` lines 86-91). -/
def interactRepeater (w : WorldI) (pos : IVec3) (id m : ℕ) : WorldI × Bool :=
  let delay := block.repeaterGetDelay m
  let m := block.repeaterSetDelay ((delay + 1) % 4) m
  (setBlockNotify w pos id m, true)

/-- `World::handle_interact_block` (`interact.rs` lines 25-36): dispatch on
the block id; any other id returns `false` with no change. -/
def handleInteractBlock (w : WorldI) (pos : IVec3) (id m : ℕ) : WorldI × Bool :=
  if id = block.BUTTON then interactButton w pos m
  else if id = block.LEVER then interactLever w pos m
  else if id = block.TRAPDOOR then interactTrapdoor w pos m
  else if id = block.IRON_DOOR then (w, true)
  else if id = block.WOOD_DOOR then interactWoodDoor 128 w pos m
  else if id = block.REPEATER ∨ id = block.REPEATER_LIT then interactRepeater w pos id m
  else (w, false)

/-- `World::interact_block` (`interact.rs` lines 15-21). -/
def interactBlock (w : WorldI) (pos : IVec3) : WorldI × Bool :=
  match w.blocks pos with
  | some (id, m) => handleInteractBlock w pos id m
  | none => (w, false)

/-! ## Lake generation fill mask (`mc173/src/gen/lake.rs`) -/

/-- Squared euclidean norm (`DVec3::length_squared`). -/
def DVec3.lengthSq (v : DVec3) : ℚ := v.x * v.x + v.y * v.y + v.z * v.z

/-- One sampled lake ellipsoid: the center `b` and the (already halved)
semi-axes `a` of `LakeGenerator::generate` (`lake.rs` lines 42-50). -/
structure Ellipsoid where
  b : DVec3
  a : DVec3
  deriving Repr, DecidableEq

/-- The ellipsoid built from two sampled `DVec3`s (`lake.rs` lines 42-50),
with the vector arithmetic written out per component:
`a = d1 * (6, 4, 6) + (3, 2, 3)`,
`b = d2 * ((16, 8, 16) - a - (2, 4, 2)) + (1, 2, 1) + a / 2`, and the stored
semi-axes are `a / 2`. -/
def mkEllipsoid (d1 d2 : DVec3) : Ellipsoid :=
  let ax := d1.x * 6 + 3
  let ay := d1.y * 4 + 2
  let az := d1.z * 6 + 3
  { b := ⟨d2.x * (16 - ax - 2) + 1 + ax / 2,
          d2.y * (8 - ay - 4) + 2 + ay / 2,
          d2.z * (16 - az - 2) + 1 + az / 2⟩
    a := ⟨ax / 2, ay / 2, az / 2⟩ }

/-- Sample one ellipsoid: two consecutive `next_dvec3` draws. -/
def sampleEllipsoid (r : JavaRandom) : Ellipsoid × JavaRandom :=
  let d1 := r.nextDVec3
  let d2 := d1.2.nextDVec3
  (mkEllipsoid d1.1 d2.1, d2.2)

/-- Sample `n` ellipsoids, threading the PRNG (`for _ in 0..count`). -/
def sampleEllipsoids : ℕ → JavaRandom → List Ellipsoid × JavaRandom
  | 0, r => ([], r)
  | n + 1, r =>
    let e := sampleEllipsoid r
    let es := sampleEllipsoids n e.2
    (e.1 :: es.1, es.2)

/-- The ellipsoid membership test of the inner loop (`lake.rs` lines 55-58):
`dist = (cell - b) / a`, marked when `dist.length_squared() < 1`. -/
def inEllipsoid (e : Ellipsoid) (dx dz dy : ℕ) : Bool :=
  let dist : DVec3 := ⟨((dx : ℚ) - e.b.x) / e.a.x,
                       ((dy : ℚ) - e.b.y) / e.a.y,
                       ((dz : ℚ) - e.b.z) / e.a.z⟩
  decide (dist.lengthSq < 1)

/-- The fill-loop bounds (`for dx in 1..15`, `for dz in 1..15`,
`for dy in 1..7`): only interior cells are ever marked. -/
def inLakeBounds (dx dz dy : ℕ) : Bool :=
  decide (1 ≤ dx) && decide (dx < 15) && decide (1 ≤ dz) && decide (dz < 15) &&
    decide (1 ≤ dy) && decide (dy < 7)

/-- OR one ellipsoid into the fill mask: the triple loop of `lake.rs` lines
52-61 sets `fill[dx][dz][dy]` for every interior cell inside the
ellipsoid and leaves every other cell unchanged. -/
def markEllipsoid (fill : ℕ → ℕ → ℕ → Bool) (e : Ellipsoid) :
    ℕ → ℕ → ℕ → Bool :=
  fun dx dz dy =>
    fill dx dz dy || (inLakeBounds dx dz dy && inEllipsoid e dx dz dy)

/-- The result of the fill-mask phase of `LakeGenerator::generate`
(`lake.rs` lines 36-63): the ellipsoid count, the sampled ellipsoids, the
16×16×8 fill mask (indexed `[dx][dz][dy]`, initially all false), and the
PRNG state left for the rest of the feature. -/
structure LakePhase where
  count : ℕ
  ellipsoids : List Ellipsoid
  fill : ℕ → ℕ → ℕ → Bool
  rand : JavaRandom

/-- The fill-mask phase of `LakeGenerator::generate` (`lake.rs` lines 36-63):
`count = rand.next_int_bounded(4) + 4` (bound 4 is a power of two, so the
fast path applies), then OR `count` sampled ellipsoids into the
all-false mask. -/
def lakeFillPhase (r : JavaRandom) : LakePhase :=
  let c := r.nextIntPow2 4
  let count := c.1 + 4
  let es := sampleEllipsoids count c.2
  { count := count
    ellipsoids := es.1
    fill := es.1.foldl markEllipsoid (fun _ _ _ => false)
    rand := es.2 }

/-! ## Generator chunk source (`mc173/src/gen/mod.rs`) -/

/-- `POPULATED_NEG_NEG` (`gen/mod.rs` line 17). -/
def POPULATED_NEG_NEG : ℕ := 0b0001

/-- `POPULATED_POS_NEG` (line 18). -/
def POPULATED_POS_NEG : ℕ := 0b0010

/-- `POPULATED_NEG_POS` (line 19). -/
def POPULATED_NEG_POS : ℕ := 0b0100

/-- `POPULATED_POS_POS` (line 20). -/
def POPULATED_POS_POS : ℕ := 0b1000

/-- `POPULATED_ALL` (line 21). -/
def POPULATED_ALL : ℕ := 0b1111

/-- `POPULATED_NEG_X = NEG_NEG | NEG_POS` (line 22). -/
def POPULATED_NEG_X : ℕ := POPULATED_NEG_NEG ||| POPULATED_NEG_POS

/-- `POPULATED_POS_X = POS_POS | POS_NEG` (line 23). -/
def POPULATED_POS_X : ℕ := POPULATED_POS_POS ||| POPULATED_POS_NEG

/-- `POPULATED_NEG_Z = NEG_NEG | POS_NEG` (line 24). -/
def POPULATED_NEG_Z : ℕ := POPULATED_NEG_NEG ||| POPULATED_POS_NEG

/-- `POPULATED_POS_Z = POS_POS | NEG_POS` (line 25). -/
def POPULATED_POS_Z : ℕ := POPULATED_POS_POS ||| POPULATED_NEG_POS

/-- The state of a `GeneratorChunkSource` worker: the shared terrain cache,
the internal staging world's chunk map, and the per-chunk populated masks.
The chunk contents are an abstract type `C` (the terrain data itself is
produced by the generator, which is a type parameter in the source too). -/
structure GenState (C : Type) where
  terrainChunks : ℤ × ℤ → Option C
  worldChunks : ℤ × ℤ → Option C
  populated : ℤ × ℤ → Option ℕ

/-- Pointwise map update (model of map insert / remove at one key). -/
def fupd {A : Type} (f : ℤ × ℤ → Option A) (k : ℤ × ℤ) (v : Option A) :
    ℤ × ℤ → Option A :=
  fun q => if q = k then v else f q

/-- The inclusive integer range `lo..=hi` as a list. -/
def intRange (lo hi : ℤ) : List ℤ :=
  (List.range (hi + 1 - lo).toNat).map (fun i : ℕ => lo + (i : ℤ))

/-- The loading-rectangle bounds of `load` (`gen/mod.rs` lines 108-125):
`(min_cx, max_cx, min_cz, max_cz)`, each side expanded by one when the
corresponding corner bits of the entry mask are not all set. -/
def loadBounds (m : ℕ) (cx cz : ℤ) : ℤ × ℤ × ℤ × ℤ :=
  (if m &&& POPULATED_NEG_X ≠ POPULATED_NEG_X then cx - 1 else cx,
   if m &&& POPULATED_POS_X ≠ POPULATED_POS_X then cx + 1 else cx,
   if m &&& POPULATED_NEG_Z ≠ POPULATED_NEG_Z then cz - 1 else cz,
   if m &&& POPULATED_POS_Z ≠ POPULATED_POS_Z then cz + 1 else cz)

/-- The terrain loop's iteration domain: `min_cx..=max_cx × min_cz..=max_cz`
(outer `cx`, inner `cz`, as in the source). -/
def terrainRect (m : ℕ) (cx cz : ℤ) : List (ℤ × ℤ) :=
  let b := loadBounds m cx cz
  (intRange b.1 b.2.1).flatMap
    (fun tcx => (intRange b.2.2.1 b.2.2.2).map (fun tcz => (tcx, tcz)))

/-- The populate loop's iteration domain:
`min_cx..=max_cx-1 × min_cz..=max_cz-1` (`gen/mod.rs` lines 168-169). -/
def populateRectL (m : ℕ) (cx cz : ℤ) : List (ℤ × ℤ) :=
  let b := loadBounds m cx cz
  (intRange b.1 (b.2.1 - 1)).flatMap
    (fun pcx => (intRange b.2.2.1 (b.2.2.2 - 1)).map (fun pcz => (pcx, pcz)))

/-- One terrain-loop iteration (`gen/mod.rs` lines 133-164): skip a chunk the
staging world already contains; otherwise take it from the shared terrain
cache, or generate it and publish it to the cache, and in either case add it
to the staging world and create its populated entry at 0. -/
def loadTerrainStep {C : Type} (gen : ℤ → ℤ → C) (st : GenState C)
    (tc : ℤ × ℤ) : GenState C :=
  if (st.worldChunks tc).isSome then st
  else
    match st.terrainChunks tc with
    | some chunk =>
      { st with worldChunks := fupd st.worldChunks tc (some chunk)
                populated := fupd st.populated tc (some 0) }
    | none =>
      let chunk := gen tc.1 tc.2
      { st with terrainChunks := fupd st.terrainChunks tc (some chunk)
                worldChunks := fupd st.worldChunks tc (some chunk)
                populated := fupd st.populated tc (some 0) }

/-- The whole terrain loop as a fold over its iteration domain. -/
def loadTerrain {C : Type} (gen : ℤ → ℤ → C) (st : GenState C)
    (rect : List (ℤ × ℤ)) : GenState C :=
  rect.foldl (loadTerrainStep gen) st

/-- The corner bit that the populate run at `pc` ORs into the mask of chunk
`q` (`gen/mod.rs` lines 174-177): `POS_POS` on `pc` itself, `NEG_POS` on its
`+x` neighbor, `POS_NEG` on its `+z` neighbor, `NEG_NEG` on the diagonal. -/
def bitsFor (pc q : ℤ × ℤ) : ℕ :=
  if q = (pc.1 + 1, pc.2 + 1) then POPULATED_NEG_NEG
  else if q = (pc.1, pc.2 + 1) then POPULATED_POS_NEG
  else if q = (pc.1 + 1, pc.2) then POPULATED_NEG_POS
  else if q = pc then POPULATED_POS_POS
  else 0

/-- One populate-loop iteration (`gen/mod.rs` lines 171-177): run the
generator's `populate` on the staging world, then OR the four corner bits
into the four masks via `get_mut(..).unwrap()` — a missing entry is the
`unwrap` panic, modelled as an error. -/
def applyPopulate {C : Type}
    (pf : ℤ → ℤ → (ℤ × ℤ → Option C) → (ℤ × ℤ → Option C))
    (st : GenState C) (pc : ℤ × ℤ) : Except String (GenState C) :=
  let world := pf pc.1 pc.2 st.worldChunks
  match st.populated pc, st.populated (pc.1 + 1, pc.2),
      st.populated (pc.1, pc.2 + 1), st.populated (pc.1 + 1, pc.2 + 1) with
  | some m00, some m10, some m01, some m11 =>
    Except.ok
      { st with
          worldChunks := world
          populated := fun q =>
            if q = (pc.1 + 1, pc.2 + 1) then some (m11 ||| POPULATED_NEG_NEG)
            else if q = (pc.1, pc.2 + 1) then some (m01 ||| POPULATED_POS_NEG)
            else if q = (pc.1 + 1, pc.2) then some (m10 ||| POPULATED_NEG_POS)
            else if q = pc then some (m00 ||| POPULATED_POS_POS)
            else st.populated q }
  | _, _, _, _ => Except.error "populated entry missing"

/-- The whole populate loop, stopping at the first would-be panic. -/
def populateLoop {C : Type}
    (pf : ℤ → ℤ → (ℤ × ℤ → Option C) → (ℤ × ℤ → Option C)) :
    List (ℤ × ℤ) → GenState C → Except String (GenState C)
  | [], st => Except.ok st
  | pc :: rest, st =>
    match applyPopulate pf st pc with
    | Except.ok st2 => populateLoop pf rest st2
    | Except.error e => Except.error e

/-- `GeneratorChunkSource::load` (`gen/mod.rs` lines 101-187): check the
entry mask is not already `ALL` (the `assert_ne!` is modelled as an error),
expand the loading rectangle, run the terrain loop and the populate loop,
then remove the populated entry (asserting it reached `ALL`) and remove and
return the chunk snapshot. -/
def load {C : Type} (gen : ℤ → ℤ → C)
    (pf : ℤ → ℤ → (ℤ × ℤ → Option C) → (ℤ × ℤ → Option C))
    (st : GenState C) (cx cz : ℤ) : Except String (C × GenState C) :=
  let m := (st.populated (cx, cz)).getD 0
  if m = POPULATED_ALL then Except.error "incoherent"
  else
    let st := loadTerrain gen st (terrainRect m cx cz)
    match populateLoop pf (populateRectL m cx cz) st with
    | Except.error e => Except.error e
    | Except.ok st =>
      match st.populated (cx, cz) with
      | none => Except.error "chunk should be present"
      | some mFinal =>
        if mFinal ≠ POPULATED_ALL then
          Except.error "chunk should be fully populated at this point"
        else
          match st.worldChunks (cx, cz) with
          | none => Except.error "chunk should be present"
          | some chunk =>
            Except.ok (chunk,
              { st with populated := fupd st.populated (cx, cz) none
                        worldChunks := fupd st.worldChunks (cx, cz) none })

/-- The all-empty generator source state over trivial chunks, used to run
`load` twice on the same coordinates. -/
def unitGenState0 : GenState Unit :=
  ⟨fun _ => none, fun _ => none, fun _ => none⟩

/-! ## World area block iterator (`src/world.rs`) -/

/-- `calc_chunk_pos`: the chunk coordinates of a block position,
`floor(blockpos / 16).xz` (modelled from the spec; `chunk.rs` is not part of
the slice).  `Int.fdiv` is floor division. -/
def calcChunkPos (pos : IVec3) : ℤ × ℤ := (Int.fdiv pos.x 16, Int.fdiv pos.z 16)

/-- The world visible to the area iterator: a chunk map, each loaded chunk
answering `block_and_metadata` for absolute positions (the chunk's internal
storage is not part of the slice, so a chunk is its accessor function). -/
structure AreaWorld where
  chunks : ℤ × ℤ → Option (IVec3 → ℕ × ℕ)

/-- The per-position block query: the loaded chunk's `block_and_metadata`,
or the `(id = 0, metadata = 0)` sentinel when no chunk covers the
position. -/
def lookupBlock (world : AreaWorld) (pos : IVec3) : ℕ × ℕ :=
  match world.chunks (calcChunkPos pos) with
  | some c => c pos
  | none => (0, 0)

/-- The `WorldAreaBlocks` iterator state (`src/world.rs` lines 160-172): the
cached chunk of the current column, the inclusive minimum, the exclusive
maximum, and the cursor. -/
structure AreaCursor where
  chunk : Option ((ℤ × ℤ) × Option (IVec3 → ℕ × ℕ))
  min : IVec3
  max : IVec3
  cursor : IVec3

/-- `WorldAreaBlocks::next` (`src/world.rs` lines 179-215): stop when the
cursor equals `max`; refresh the chunk cache at the start of a column
(`cursor.y == min.y`) unless it already holds the column's chunk; produce
`(0, 0)` when there is no chunk, else the chunk's block; then advance the
cursor y-fastest, then z, then x. -/
def areaNext (world : AreaWorld) (s : AreaCursor) :
    Option ((ℕ × ℕ) × AreaCursor) :=
  if s.cursor = s.max then none
  else
    let chunk :=
      if s.cursor.y = s.min.y then
        let cp := calcChunkPos s.cursor
        match s.chunk with
        | some (ccp, c) =>
          if ccp = cp then some (ccp, c) else some (cp, world.chunks cp)
        | none => some (cp, world.chunks cp)
      else s.chunk
    let ret : ℕ × ℕ :=
      match chunk with
      | some (_, some c) => c s.cursor
      | _ => (0, 0)
    let cursor :=
      if s.cursor.y + 1 = s.max.y then
        if s.cursor.z + 1 = s.max.z then
          (⟨s.cursor.x + 1, s.min.y, s.min.z⟩ : IVec3)
        else ⟨s.cursor.x, s.min.y, s.cursor.z + 1⟩
      else ⟨s.cursor.x, s.cursor.y + 1, s.cursor.z⟩
    some (ret, { s with chunk := chunk, cursor := cursor })

/-- Run the iterator for a bounded number of steps, collecting the yielded
items (the iterator itself is a total step function; the fuel only bounds
how much of the stream is observed). -/
def areaRun (world : AreaWorld) : ℕ → AreaCursor → List (ℕ × ℕ)
  | 0, _ => []
  | n + 1, s =>
    match areaNext world s with
    | none => []
    | some (it, s2) => it :: areaRun world n s2

/-- `World::iter_area_blocks` (`src/world.rs` lines 123-131): the initial
iterator state for the area `min..max`. -/
def iterAreaBlocks (min max : IVec3) : AreaCursor :=
  { chunk := none, min := min, max := max, cursor := min }

/-- The chunk coordinates as a function of the column only (`calcChunkPos`
ignores `y`). -/
def chunkXZ (x z : ℤ) : ℤ × ℤ := (Int.fdiv x 16, Int.fdiv z 16)

/-- A column of `k` positions at `(x, z)` going up from `y`. -/
def columnPoints (x y z : ℤ) : ℕ → List IVec3
  | 0 => []
  | k + 1 => ⟨x, y, z⟩ :: columnPoints x (y + 1) z k

/-- `j` columns of `ky` positions at `x`, with `z` advancing. -/
def planePoints (x minY z : ℤ) (ky : ℕ) : ℕ → List IVec3
  | 0 => []
  | j + 1 => columnPoints x minY z ky ++ planePoints x minY (z + 1) ky j

/-- `i` planes of `kz × ky` positions, with `x` advancing. -/
def areaPoints (x minY minZ : ℤ) (ky kz : ℕ) : ℕ → List IVec3
  | 0 => []
  | i + 1 => planePoints x minY minZ ky kz ++ areaPoints (x + 1) minY minZ ky kz i

/-- The positions of the area `min..max` in iteration order: x-major, then
z, y fastest. -/
def areaPositions (min max : IVec3) : List IVec3 :=
  areaPoints min.x min.y min.z (max.y - min.y).toNat (max.z - min.z).toNat
    (max.x - min.x).toNat

/-- The chunk cache is valid: whatever chunk it claims for a coordinate is
what the world holds there. -/
def CacheOk (world : AreaWorld)
    (c : Option ((ℤ × ℤ) × Option (IVec3 → ℕ × ℕ))) : Prop :=
  ∀ cp co, c = some (cp, co) → co = world.chunks cp

/-- A one-chunk world used to exercise the iterator on a concrete range. -/
def unitAreaWorld : AreaWorld :=
  { chunks := fun cp => if cp = (0, 0) then some (fun p => (1, p.y.toNat)) else none }

/-! ## Theorems -/

@[simp] theorem DVec3.add_x (a b : DVec3) : (a + b).x = a.x + b.x := rfl

@[simp] theorem DVec3.add_y (a b : DVec3) : (a + b).y = a.y + b.y := rfl

@[simp] theorem DVec3.add_z (a b : DVec3) : (a + b).z = a.z + b.z := rfl

/-- C1 (counterexample): for the concrete player at `pos = (0, 0, 0)`, the
save-then-restore cycle does not preserve `pos` — the restored player, and
the entity spawned at the offline position, stand at `(0, 1.72, 0)`.  The
`+1.72` added at save and the `stance = pos.y + 1.62` wire field do not
compose to the identity on the position: restore sends `pos` unchanged, and
`1.72 - 1.62 = 0.1 ≠ 0`. -/
theorem saveRestore_not_identity :
    (saveRestore "overworld"
        ⟨"A", ⟨0, 0, 0⟩, ⟨0, 0⟩, [], [], [], ItemStack.EMPTY, 0⟩).pos ≠ ⟨0, 0, 0⟩ ∧
    loginSpawnPos (savePlayerState "overworld"
        ⟨"A", ⟨0, 0, 0⟩, ⟨0, 0⟩, [], [], [], ItemStack.EMPTY, 0⟩) ≠ ⟨0, 0, 0⟩ ∧
    (172/100 : ℚ) - 162/100 ≠ 0 := by
  refine ⟨?_, ?_, by norm_num⟩ <;>
    simp [saveRestore, ServerPlayer.new, savePlayerState, loginSpawnPos, DVec3.ext_iff]

/-- C1 (amended): save-then-restore preserves `look`, all three inventories,
`cursor_stack` and `hand_slot` exactly, but shifts the position by exactly
`(0, 1.72, 0)`: the entity of the next login spawns at `pos + (0, 1.72, 0)`,
and `restore_player_state` sends that shifted position unchanged, with
`stance = shifted_pos.y + 1.62` as a separate wire field, so the `+1.72`
added at save is never subtracted and the two adjustments differ by `0.1`. -/
theorem saveRestore_amended (worldName : String) (p : ServerPlayer) :
    (saveRestore worldName p).look = p.look ∧
    (saveRestore worldName p).main_inv = p.main_inv ∧
    (saveRestore worldName p).armor_inv = p.armor_inv ∧
    (saveRestore worldName p).craft_inv = p.craft_inv ∧
    (saveRestore worldName p).cursor_stack = p.cursor_stack ∧
    (saveRestore worldName p).hand_slot = p.hand_slot ∧
    (saveRestore worldName p).pos = p.pos + ⟨0, 172/100, 0⟩ ∧
    loginSpawnPos (savePlayerState worldName p) = p.pos + ⟨0, 172/100, 0⟩ ∧
    restorePositionLook (saveRestore worldName p) =
      (p.pos + ⟨0, 172/100, 0⟩, (p.pos + ⟨0, 172/100, 0⟩).y + 162/100) := by
  refine ⟨rfl, rfl, rfl, rfl, rfl, rfl, rfl, rfl, rfl⟩

/-- C8 (counterexample): a living entity standing on the ground (not in any
fluid) with `jumping` set and `vel.y = 0` gets `vel.y = 0.52` from the tick,
not `0.42`: the source adds `0.42 + 0.1`. -/
theorem jump_impulse_counterexample :
    ((tickLivingJumpAccel ⟨⟨0, 0, 0⟩, false, false, false, true⟩
        ⟨true, 0, 0, 0⟩).1.vel.y = 52/100) ∧
    ((tickLivingJumpAccel ⟨⟨0, 0, 0⟩, false, false, false, true⟩
        ⟨true, 0, 0, 0⟩).1.vel.y ≠ 42/100) := by
  constructor
  all_goals simp [tickLivingJumpAccel]
  all_goals norm_num

/-- C8 (amended): for every living entity with `jumping` set, the jump
fragment of `tick_living` adds exactly `0.04` to `vel.y` when the entity is
in water or lava, and otherwise adds exactly `0.52 = 0.42 + 0.1` (the
empirical `+0.1` retained from the source comment) when it is on the ground;
in both cases `vel_dirty` is set. -/
theorem jump_impulse_amended (base : JumpBase) (living : LivingAccel)
    (hj : living.jumping = true) :
    ((base.in_water || base.in_lava) = true →
      (tickLivingJumpAccel base living).1.vel.y = base.vel.y + 4/100 ∧
      (tickLivingJumpAccel base living).1.vel_dirty = true) ∧
    ((base.in_water || base.in_lava) = false → base.on_ground = true →
      (tickLivingJumpAccel base living).1.vel.y = base.vel.y + 52/100 ∧
      (tickLivingJumpAccel base living).1.vel_dirty = true) := by
  unfold tickLivingJumpAccel
  rw [hj]
  constructor
  · intro hf
    rw [hf]
    norm_num
  · intro hf hg
    rw [hf, hg]
    norm_num

/-- Witness for `jump_impulse_amended`: a concrete jumping entity in lava
gains exactly `0.04` of upward velocity, with `vel_dirty` set. -/
theorem jump_impulse_amended_witness :
    (tickLivingJumpAccel ⟨⟨0, 0, 0⟩, false, false, true, false⟩
        ⟨true, 0, 0, 0⟩).1.vel.y = (0 : ℚ) + 4/100 ∧
    (tickLivingJumpAccel ⟨⟨0, 0, 0⟩, false, false, true, false⟩
        ⟨true, 0, 0, 0⟩).1.vel_dirty = true :=
  (jump_impulse_amended ⟨⟨0, 0, 0⟩, false, false, true, false⟩
      ⟨true, 0, 0, 0⟩ rfl).1 rfl

set_option maxRecDepth 8192 in
/-- Flipping the lever active bit with `set_active(!is_active(m))` is exactly
an XOR with the bit mask `0x8`, for any `u8` metadata value. -/
theorem leverToggle_eq_xor :
    ∀ m : ℕ, m < 256 →
      block.leverSetActive (!block.leverIsActive m) m = m ^^^ 8 := by
  decide

/-- C10: interacting with a lever returns `true` and toggles exactly the
active metadata bit (`metadata ^^^ 0x8`) of the lever block, touching no
other position and scheduling no tick; interacting twice restores the whole
block map, so lever interaction is an involution. -/
theorem lever_interact_involution (w : WorldI) (pos : IVec3) (m : ℕ)
    (hm : m < 256) (h : w.blocks pos = some (block.LEVER, m)) :
    (interactBlock w pos).2 = true ∧
    (interactBlock w pos).1.blocks pos = some (block.LEVER, m ^^^ 8) ∧
    (∀ q, q ≠ pos → (interactBlock w pos).1.blocks q = w.blocks q) ∧
    (interactBlock w pos).1.scheduledTicks = w.scheduledTicks ∧
    (interactBlock (interactBlock w pos).1 pos).2 = true ∧
    (∀ q, (interactBlock (interactBlock w pos).1 pos).1.blocks q = w.blocks q) ∧
    (interactBlock (interactBlock w pos).1 pos).1.scheduledTicks =
      w.scheduledTicks := by
  have hx : m ^^^ 8 < 256 := by
    have : m ^^^ 8 < 2 ^ 8 := Nat.xor_lt_two_pow (n := 8) hm (by norm_num)
    simpa using this
  have h1 := leverToggle_eq_xor m hm
  have h2 := leverToggle_eq_xor (m ^^^ 8) hx
  have hxx : (m ^^^ 8) ^^^ 8 = m := Nat.xor_cancel_right 8 m
  refine ⟨?_, ?_, ?_, ?_, ?_, ?_, ?_⟩ <;>
    simp [interactBlock, h, handleInteractBlock, interactLever, setBlockNotify,
      block.LEVER, block.BUTTON, block.TRAPDOOR, block.IRON_DOOR,
      block.WOOD_DOOR, block.REPEATER, block.REPEATER_LIT, h1, h2, hxx]
  · intro q hq
    simp [hq]
  · intro q
    by_cases hq : q = pos
    · simp [hq, h, block.LEVER]
    · simp [hq]

/-- Witness for `lever_interact_involution`: a world holding a single
inactive lever at the origin. -/
theorem lever_interact_involution_witness :
    (interactBlock
        ⟨fun q => if q = ⟨0, 0, 0⟩ then some (block.LEVER, 0) else none, []⟩
        ⟨0, 0, 0⟩).2 = true ∧
    (interactBlock
        (interactBlock
          ⟨fun q => if q = ⟨0, 0, 0⟩ then some (block.LEVER, 0) else none, []⟩
          ⟨0, 0, 0⟩).1 ⟨0, 0, 0⟩).1.blocks ⟨0, 0, 0⟩ =
      (fun q : IVec3 => if q = ⟨0, 0, 0⟩ then some (block.LEVER, 0) else none)
        ⟨0, 0, 0⟩ := by
  have H := lever_interact_involution
    ⟨fun q => if q = ⟨0, 0, 0⟩ then some (block.LEVER, 0) else none, []⟩
    ⟨0, 0, 0⟩ 0 (by norm_num) (by simp)
  exact ⟨H.1, H.2.2.2.2.2.1 ⟨0, 0, 0⟩⟩

/-- C2: for every `Login` packet whose `protocol_version` is not 14, received
from a client in the `Handshaking` state, `handle_login` sends exactly one
`Disconnect` packet with reason `"Protocol version mismatch!"` and performs
no other state change: the clients map (hence the client's `Handshaking`
state), every world (so no entity is spawned) and the offline players
database are all left exactly as they were. -/
theorem login_bad_version (s : ServerM) (client : ℕ) (packet : InLoginPacket)
    (hc : assocGet s.clients client = some ClientStateM.handshaking)
    (hv : packet.protocol_version ≠ 14) :
    handleLogin s client packet =
      some { s with sent :=
        s.sent ++ [(client, OutPacketM.disconnect "Protocol version mismatch!")] } := by
  unfold handleLogin sendDisconnect
  rw [if_pos hv, hc]

/-- Witness for `login_bad_version`: a concrete one-world server with one
handshaking client receiving `protocol_version = 13`. -/
theorem login_bad_version_witness :
    handleLogin
        ⟨[(7, ClientStateM.handshaking)],
         [⟨"overworld", 0, Dimension.overworld, 0, Weather.clear, [], 0, [], []⟩],
         [], []⟩ 7 ⟨13, "A"⟩ =
      some ⟨[(7, ClientStateM.handshaking)],
         [⟨"overworld", 0, Dimension.overworld, 0, Weather.clear, [], 0, [], []⟩],
         [], [(7, OutPacketM.disconnect "Protocol version mismatch!")]⟩ :=
  login_bad_version
    ⟨[(7, ClientStateM.handshaking)],
     [⟨"overworld", 0, Dimension.overworld, 0, Weather.clear, [], 0, [], []⟩],
     [], []⟩ 7 ⟨13, "A"⟩ rfl (by decide)

/-- Each single-candidate clamp keeps the Y displacement on the same side of
zero and never increases its magnitude. -/
theorem calcYDelta_between (c bb : Box) (d : ℚ) :
    (0 ≤ d → 0 ≤ c.calcYDelta bb d ∧ c.calcYDelta bb d ≤ d) ∧
    (d ≤ 0 → d ≤ c.calcYDelta bb d ∧ c.calcYDelta bb d ≤ 0) := by
  unfold Box.calcYDelta
  split_ifs with h1 h2 h3
  · exact ⟨fun hd => ⟨le_min hd (by linarith [h2.2]), min_le_left _ _⟩,
      fun hd => absurd h2.1 (not_lt.mpr hd)⟩
  · exact ⟨fun hd => absurd h3.1 (not_lt.mpr hd),
      fun hd => ⟨le_max_left _ _, max_le hd (by linarith [h3.2])⟩⟩
  · exact ⟨fun hd => ⟨hd, le_refl _⟩, fun hd => ⟨le_refl _, hd⟩⟩
  · exact ⟨fun hd => ⟨hd, le_refl _⟩, fun hd => ⟨le_refl _, hd⟩⟩

/-- Each single-candidate clamp keeps the X displacement on the same side of
zero and never increases its magnitude. -/
theorem calcXDelta_between (c bb : Box) (d : ℚ) :
    (0 ≤ d → 0 ≤ c.calcXDelta bb d ∧ c.calcXDelta bb d ≤ d) ∧
    (d ≤ 0 → d ≤ c.calcXDelta bb d ∧ c.calcXDelta bb d ≤ 0) := by
  unfold Box.calcXDelta
  split_ifs with h1 h2 h3
  · exact ⟨fun hd => ⟨le_min hd (by linarith [h2.2]), min_le_left _ _⟩,
      fun hd => absurd h2.1 (not_lt.mpr hd)⟩
  · exact ⟨fun hd => absurd h3.1 (not_lt.mpr hd),
      fun hd => ⟨le_max_left _ _, max_le hd (by linarith [h3.2])⟩⟩
  · exact ⟨fun hd => ⟨hd, le_refl _⟩, fun hd => ⟨le_refl _, hd⟩⟩
  · exact ⟨fun hd => ⟨hd, le_refl _⟩, fun hd => ⟨le_refl _, hd⟩⟩

/-- Each single-candidate clamp keeps the Z displacement on the same side of
zero and never increases its magnitude. -/
theorem calcZDelta_between (c bb : Box) (d : ℚ) :
    (0 ≤ d → 0 ≤ c.calcZDelta bb d ∧ c.calcZDelta bb d ≤ d) ∧
    (d ≤ 0 → d ≤ c.calcZDelta bb d ∧ c.calcZDelta bb d ≤ 0) := by
  unfold Box.calcZDelta
  split_ifs with h1 h2 h3
  · exact ⟨fun hd => ⟨le_min hd (by linarith [h2.2]), min_le_left _ _⟩,
      fun hd => absurd h2.1 (not_lt.mpr hd)⟩
  · exact ⟨fun hd => absurd h3.1 (not_lt.mpr hd),
      fun hd => ⟨le_max_left _ _, max_le hd (by linarith [h3.2])⟩⟩
  · exact ⟨fun hd => ⟨hd, le_refl _⟩, fun hd => ⟨le_refl _, hd⟩⟩
  · exact ⟨fun hd => ⟨hd, le_refl _⟩, fun hd => ⟨le_refl _, hd⟩⟩

/-- Folding a sign-and-magnitude-preserving clamp over a candidate list
preserves the sign and never increases the magnitude. -/
theorem foldl_interval {α : Type} (g : ℚ → α → ℚ)
    (H : ∀ d a, (0 ≤ d → 0 ≤ g d a ∧ g d a ≤ d) ∧ (d ≤ 0 → d ≤ g d a ∧ g d a ≤ 0))
    (l : List α) :
    ∀ d : ℚ,
      (0 ≤ d → 0 ≤ l.foldl g d ∧ l.foldl g d ≤ d) ∧
      (d ≤ 0 → d ≤ l.foldl g d ∧ l.foldl g d ≤ 0) := by
  induction l with
  | nil => exact fun d => ⟨fun hd => ⟨hd, le_refl _⟩, fun hd => ⟨le_refl _, hd⟩⟩
  | cons a l ih =>
    intro d
    have h1 := H d a
    have h2 := ih (g d a)
    refine ⟨fun hd => ?_, fun hd => ?_⟩
    · have ha := h1.1 hd
      have hb := h2.1 ha.1
      exact ⟨hb.1, le_trans hb.2 ha.2⟩
    · have ha := h1.2 hd
      have hb := h2.2 ha.2
      exact ⟨le_trans ha.1 hb.1, hb.2⟩

/-- The Y-axis fold reduction preserves sign and never grows magnitude. -/
theorem resolveY_between (cands : List Box) (bb : Box) (d : ℚ) :
    (0 ≤ d → 0 ≤ resolveY cands bb d ∧ resolveY cands bb d ≤ d) ∧
    (d ≤ 0 → d ≤ resolveY cands bb d ∧ resolveY cands bb d ≤ 0) :=
  foldl_interval _ (fun d c => calcYDelta_between c bb d) cands d

/-- The X-axis fold reduction preserves sign and never grows magnitude. -/
theorem resolveX_between (cands : List Box) (bb : Box) (d : ℚ) :
    (0 ≤ d → 0 ≤ resolveX cands bb d ∧ resolveX cands bb d ≤ d) ∧
    (d ≤ 0 → d ≤ resolveX cands bb d ∧ resolveX cands bb d ≤ 0) :=
  foldl_interval _ (fun d c => calcXDelta_between c bb d) cands d

/-- The Z-axis fold reduction preserves sign and never grows magnitude. -/
theorem resolveZ_between (cands : List Box) (bb : Box) (d : ℚ) :
    (0 ≤ d → 0 ≤ resolveZ cands bb d ∧ resolveZ cands bb d ≤ d) ∧
    (d ≤ 0 → d ≤ resolveZ cands bb d ∧ resolveZ cands bb d ≤ 0) :=
  foldl_interval _ (fun d c => calcZDelta_between c bb d) cands d

/-- C3: with `no_clip` unset, the collision step resolves the displacement
one axis at a time, Y first, then X, then Z — each axis component reduced
against every candidate box (via the `resolve` folds) before the bounding
box is moved on that axis; the per-axis reduction preserves the sign of the
component and never increases its magnitude; afterwards `on_ground` holds
iff the Y axis collided with `delta.y < 0`, and the velocity component of
every collided axis is zeroed with `vel_dirty` set. -/
theorem tick_base_pos_spec (cands : List Box) (base : Base) (delta : DVec3)
    (stepHeight : ℚ) (hnc : base.no_clip = false) :
    (tickBasePos cands base delta stepHeight).bb =
      (tickBB2 cands base delta).addVec ⟨0, 0, tickDz cands base delta⟩ ∧
    (0 ≤ delta.y → 0 ≤ tickDy cands base delta ∧ tickDy cands base delta ≤ delta.y) ∧
    (delta.y ≤ 0 → delta.y ≤ tickDy cands base delta ∧ tickDy cands base delta ≤ 0) ∧
    (0 ≤ delta.x → 0 ≤ tickDx cands base delta ∧ tickDx cands base delta ≤ delta.x) ∧
    (delta.x ≤ 0 → delta.x ≤ tickDx cands base delta ∧ tickDx cands base delta ≤ 0) ∧
    (0 ≤ delta.z → 0 ≤ tickDz cands base delta ∧ tickDz cands base delta ≤ delta.z) ∧
    (delta.z ≤ 0 → delta.z ≤ tickDz cands base delta ∧ tickDz cands base delta ≤ 0) ∧
    ((tickBasePos cands base delta stepHeight).on_ground = true ↔
      delta.y ≠ tickDy cands base delta ∧ delta.y < 0) ∧
    (tickBasePos cands base delta stepHeight).vel.x =
      (if delta.x ≠ tickDx cands base delta then 0 else base.vel.x) ∧
    (tickBasePos cands base delta stepHeight).vel.y =
      (if delta.y ≠ tickDy cands base delta then 0 else base.vel.y) ∧
    (tickBasePos cands base delta stepHeight).vel.z =
      (if delta.z ≠ tickDz cands base delta then 0 else base.vel.z) ∧
    (tickBasePos cands base delta stepHeight).vel_dirty =
      (base.vel_dirty || decide (delta.x ≠ tickDx cands base delta) ||
        decide (delta.y ≠ tickDy cands base delta) ||
        decide (delta.z ≠ tickDz cands base delta)) := by
  have hy := resolveY_between cands base.bb delta.y
  have hx := resolveX_between cands (tickBB1 cands base delta) delta.x
  have hz := resolveZ_between cands (tickBB2 cands base delta) delta.z
  refine ⟨?_, hy.1, hy.2, hx.1, hx.2, hz.1, hz.2, ?_, ?_, ?_, ?_, ?_⟩ <;>
    simp only [tickBasePos, hnc, Bool.false_eq_true, if_false, updatePosFromBB,
      tickDy, tickDx, tickDz, tickBB1, tickBB2, resolveY, resolveX, resolveZ,
      Bool.and_eq_true, decide_eq_true_eq, Bool.or_eq_true, ne_eq, ite_not,
      Bool.ite_eq_true_distrib]

/-- Witness for `tick_base_pos_spec`: a unit cube falling freely (no
candidates), `delta = (0, -1, 0)`. -/
theorem tick_base_pos_spec_witness :
    (tickBasePos [] stepScenarioBase ⟨0, -1, 0⟩ 0).bb =
      (tickBB2 [] stepScenarioBase ⟨0, -1, 0⟩).addVec
        ⟨0, 0, tickDz [] stepScenarioBase ⟨0, -1, 0⟩⟩ ∧
    ((0 : ℚ) ≤ (-1 : ℚ) → 0 ≤ tickDy [] stepScenarioBase ⟨0, -1, 0⟩ ∧
      tickDy [] stepScenarioBase ⟨0, -1, 0⟩ ≤ -1) ∧
    ((-1 : ℚ) ≤ 0 → (-1 : ℚ) ≤ tickDy [] stepScenarioBase ⟨0, -1, 0⟩ ∧
      tickDy [] stepScenarioBase ⟨0, -1, 0⟩ ≤ 0) ∧
    ((0 : ℚ) ≤ 0 → 0 ≤ tickDx [] stepScenarioBase ⟨0, -1, 0⟩ ∧
      tickDx [] stepScenarioBase ⟨0, -1, 0⟩ ≤ 0) ∧
    ((0 : ℚ) ≤ 0 → (0 : ℚ) ≤ tickDx [] stepScenarioBase ⟨0, -1, 0⟩ ∧
      tickDx [] stepScenarioBase ⟨0, -1, 0⟩ ≤ 0) ∧
    ((0 : ℚ) ≤ 0 → 0 ≤ tickDz [] stepScenarioBase ⟨0, -1, 0⟩ ∧
      tickDz [] stepScenarioBase ⟨0, -1, 0⟩ ≤ 0) ∧
    ((0 : ℚ) ≤ 0 → (0 : ℚ) ≤ tickDz [] stepScenarioBase ⟨0, -1, 0⟩ ∧
      tickDz [] stepScenarioBase ⟨0, -1, 0⟩ ≤ 0) ∧
    ((tickBasePos [] stepScenarioBase ⟨0, -1, 0⟩ 0).on_ground = true ↔
      (-1 : ℚ) ≠ tickDy [] stepScenarioBase ⟨0, -1, 0⟩ ∧ (-1 : ℚ) < 0) ∧
    (tickBasePos [] stepScenarioBase ⟨0, -1, 0⟩ 0).vel.x =
      (if (0 : ℚ) ≠ tickDx [] stepScenarioBase ⟨0, -1, 0⟩ then 0
        else stepScenarioBase.vel.x) ∧
    (tickBasePos [] stepScenarioBase ⟨0, -1, 0⟩ 0).vel.y =
      (if (-1 : ℚ) ≠ tickDy [] stepScenarioBase ⟨0, -1, 0⟩ then 0
        else stepScenarioBase.vel.y) ∧
    (tickBasePos [] stepScenarioBase ⟨0, -1, 0⟩ 0).vel.z =
      (if (0 : ℚ) ≠ tickDz [] stepScenarioBase ⟨0, -1, 0⟩ then 0
        else stepScenarioBase.vel.z) ∧
    (tickBasePos [] stepScenarioBase ⟨0, -1, 0⟩ 0).vel_dirty =
      (stepScenarioBase.vel_dirty ||
        decide ((0 : ℚ) ≠ tickDx [] stepScenarioBase ⟨0, -1, 0⟩) ||
        decide ((-1 : ℚ) ≠ tickDy [] stepScenarioBase ⟨0, -1, 0⟩) ||
        decide ((0 : ℚ) ≠ tickDz [] stepScenarioBase ⟨0, -1, 0⟩)) :=
  tick_base_pos_spec [] stepScenarioBase ⟨0, -1, 0⟩ 0 rfl

/-- C4: the auto-step is not implemented.  The collision-step result is
independent of `step_height` (the source computes the step condition and
leaves the body `TODO`), and in the concrete scenario — entity on the
ground, X collision against a quarter-high wall, `step_height = 0.5` — the
step condition holds, yet the X travel stays truncated to `1/4` (the wall
face) instead of retrying the full `1/2` delta at the incremented Y and
keeping the farther result. -/
theorem step_motion_unimplemented :
    (∀ (cands : List Box) (base : Base) (delta : DVec3) (h₁ h₂ : ℚ),
      tickBasePos cands base delta h₁ = tickBasePos cands base delta h₂) ∧
    (tickBasePos stepScenarioCands stepScenarioBase stepScenarioDelta (1/2)).on_ground
      = true ∧
    stepScenarioDelta.x ≠ tickDx stepScenarioCands stepScenarioBase stepScenarioDelta ∧
    tickDx stepScenarioCands stepScenarioBase stepScenarioDelta = 1/4 ∧
    (tickBasePos stepScenarioCands stepScenarioBase stepScenarioDelta (1/2)).bb.max.x
      = 5/4 ∧
    tickBasePos stepScenarioCands stepScenarioBase stepScenarioDelta (1/2) =
      tickBasePos stepScenarioCands stepScenarioBase stepScenarioDelta 0 := by
  refine ⟨fun cands base delta h₁ h₂ => rfl, ?_, ?_, ?_, ?_, rfl⟩ <;>
    norm_num [tickBasePos, tickDy, tickDx, tickDz, tickBB1, tickBB2, resolveY,
      resolveX, resolveZ, Box.calcYDelta, Box.calcXDelta, Box.calcZDelta,
      Box.addVec, updatePosFromBB, stepScenarioCands, stepScenarioBase,
      stepScenarioDelta, List.foldl]

/-- The collision step with no candidate boxes: nothing collides, the box is
translated by the full delta, velocity is kept, and the entity is airborne. -/
theorem tickBasePos_nil (base : Base) (delta : DVec3) (h : ℚ)
    (hnc : base.no_clip = false) :
    (tickBasePos [] base delta h).on_ground = false ∧
    (tickBasePos [] base delta h).vel = base.vel ∧
    (tickBasePos [] base delta h).bb =
      ((base.bb.addVec ⟨0, delta.y, 0⟩).addVec ⟨delta.x, 0, 0⟩).addVec
        ⟨0, 0, delta.z⟩ ∧
    (tickBasePos [] base delta h).pos.y =
      base.bb.min.y + delta.y + base.heightOffset := by
  refine ⟨?_, ?_, ?_, ?_⟩ <;>
    simp [tickBasePos, hnc, resolveY, resolveX, resolveZ, updatePosFromBB,
      Box.addVec]

/-- A `calc_x_delta` clamp of a zero displacement is zero. -/
theorem calcXDelta_zero (c bb : Box) : c.calcXDelta bb 0 = 0 := by
  unfold Box.calcXDelta
  split_ifs with h1 h2 h3
  · exact absurd h2.1 (lt_irrefl 0)
  · exact absurd h3.1 (lt_irrefl 0)
  · rfl
  · rfl

/-- A `calc_z_delta` clamp of a zero displacement is zero. -/
theorem calcZDelta_zero (c bb : Box) : c.calcZDelta bb 0 = 0 := by
  unfold Box.calcZDelta
  split_ifs with h1 h2 h3
  · exact absurd h2.1 (lt_irrefl 0)
  · exact absurd h3.1 (lt_irrefl 0)
  · rfl
  · rfl

/-- The collision step of a straight-down fall onto a single ground box whose
top face is reached within the displacement: the entity lands flush on the
ground, `on_ground` is set and the Y velocity is zeroed. -/
theorem tickBasePos_land (ground : Box) (base : Base) (delta : DVec3) (h : ℚ)
    (hnc : base.no_clip = false)
    (hdx : delta.x = 0) (hdz : delta.z = 0) (hdy : delta.y < 0)
    (hox1 : ground.min.x < base.bb.max.x) (hox2 : base.bb.min.x < ground.max.x)
    (hoz1 : ground.min.z < base.bb.max.z) (hoz2 : base.bb.min.z < ground.max.z)
    (habove : ground.max.y ≤ base.bb.min.y)
    (hpen : delta.y < ground.max.y - base.bb.min.y) :
    (tickBasePos [ground] base delta h).on_ground = true ∧
    (tickBasePos [ground] base delta h).vel.y = 0 ∧
    (tickBasePos [ground] base delta h).vel.x = base.vel.x ∧
    (tickBasePos [ground] base delta h).vel.z = base.vel.z ∧
    (tickBasePos [ground] base delta h).bb.min.y = ground.max.y := by
  have hyres : resolveY [ground] base.bb delta.y =
      ground.max.y - base.bb.min.y := by
    unfold resolveY
    simp only [List.foldl_cons, List.foldl_nil]
    unfold Box.calcYDelta
    rw [if_pos ⟨hox1, hox2, hoz1, hoz2⟩, if_neg (fun hcon => lt_asymm hdy hcon.1),
      if_pos ⟨hdy, habove⟩]
    exact max_eq_right (le_of_lt hpen)
  have hne : delta.y ≠ resolveY [ground] base.bb delta.y := by
    rw [hyres]
    exact ne_of_lt hpen
  have hxres : ∀ bbq : Box, resolveX [ground] bbq delta.x = delta.x := by
    intro bbq
    unfold resolveX
    simp only [List.foldl_cons, List.foldl_nil, hdx, calcXDelta_zero]
  have hzres : ∀ bbq : Box, resolveZ [ground] bbq delta.z = delta.z := by
    intro bbq
    unfold resolveZ
    simp only [List.foldl_cons, List.foldl_nil, hdz, calcZDelta_zero]
  refine ⟨?_, ?_, ?_, ?_, ?_⟩ <;>
    simp [tickBasePos, hnc, updatePosFromBB, hyres, hne, hxres, hzres, hdy,
      Box.addVec, ne_of_lt hpen]

/-- The friction tail while airborne: velocity is scaled by `0.98` on every
axis; nothing else changes. -/
theorem itemFriction_aerial (getB : IVec3 → Option (ℕ × ℕ)) (base : Base)
    (hg : base.on_ground = false) :
    (itemFrictionStep getB base).vel.y = base.vel.y * (98/100) ∧
    (itemFrictionStep getB base).bb = base.bb ∧
    (itemFrictionStep getB base).on_ground = false ∧
    (itemFrictionStep getB base).pos = base.pos := by
  refine ⟨?_, ?_, ?_, ?_⟩ <;> simp [itemFrictionStep, hg]

/-- The friction tail on the ground with `vel.y = 0`: the `* 0.98` and the
`* -0.5` bounce both act on zero, so `vel.y` stays zero. -/
theorem itemFriction_grounded_y0 (getB : IVec3 → Option (ℕ × ℕ)) (base : Base)
    (hg : base.on_ground = true) (hy : base.vel.y = 0) :
    (itemFrictionStep getB base).vel.y = 0 ∧
    (itemFrictionStep getB base).on_ground = true ∧
    (itemFrictionStep getB base).bb = base.bb := by
  refine ⟨?_, ?_, ?_⟩ <;> simp [itemFrictionStep, hg, hy]

/-- C7 (counterexample): the concrete falling item (velocity `-0.0392`,
`0.02` above a slipperiness-`0.6` block) on its first ground-contact tick
ends with `vel.y = 0`, not the claimed `+0.02` bounce: the Y collision
zeroes the velocity before the friction and the `* -0.5` flip run. -/
theorem item_landing_counterexample :
    (tickItem itemScenarioGetBlock (fun _ => false) itemScenarioCands
        itemScenarioBase ⟨0⟩).1.on_ground = true ∧
    (tickItem itemScenarioGetBlock (fun _ => false) itemScenarioCands
        itemScenarioBase ⟨0⟩).1.vel.y = 0 ∧
    (tickItem itemScenarioGetBlock (fun _ => false) itemScenarioCands
        itemScenarioBase ⟨0⟩).1.vel.y ≠ 1/50 := by
  have hland := tickBasePos_land itemScenarioGround (itemGravity itemScenarioBase)
    (itemGravity itemScenarioBase).vel 0 (by norm_num [itemGravity, itemScenarioBase])
    (by norm_num [itemGravity, itemScenarioBase])
    (by norm_num [itemGravity, itemScenarioBase])
    (by norm_num [itemGravity, itemScenarioBase])
    (by norm_num [itemGravity, itemScenarioBase, itemScenarioGround])
    (by norm_num [itemGravity, itemScenarioBase, itemScenarioGround])
    (by norm_num [itemGravity, itemScenarioBase, itemScenarioGround])
    (by norm_num [itemGravity, itemScenarioBase, itemScenarioGround])
    (by norm_num [itemGravity, itemScenarioBase, itemScenarioGround])
    (by norm_num [itemGravity, itemScenarioBase, itemScenarioGround])
  have hfric := itemFriction_grounded_y0 itemScenarioGetBlock
    (tickBasePos [itemScenarioGround] (itemGravity itemScenarioBase)
      (itemGravity itemScenarioBase).vel 0) hland.1 hland.2.1
  have heq : (tickItem itemScenarioGetBlock (fun _ => false) itemScenarioCands
      itemScenarioBase ⟨0⟩).1 =
      itemFrictionStep itemScenarioGetBlock
        (tickBasePos [itemScenarioGround] (itemGravity itemScenarioBase)
          (itemGravity itemScenarioBase).vel 0) := by
    simp [tickItem, itemLavaJitter, itemScenarioCands, itemScenarioBase,
      itemGravity]
  rw [heq]
  exact ⟨hfric.2.1, hfric.1, by rw [hfric.1]; norm_num⟩

/-- C7 (amended): an item with zero velocity in the air loses exactly `0.04`
of height in its first tick and ends it with `vel.y = -0.0392 ≈ -0.04`; on
the first tick that contacts the ground, the Y collision zeroes `vel.y`
before the friction tail runs, so `vel.y` ends at `0` — there is no `+0.02`
bounce (the `* -0.5` flip acts on the already-zeroed velocity). -/
theorem item_tick_amended :
    (∀ (getB : IVec3 → Option (ℕ × ℕ)) (iO : IVec3 → Bool)
        (cF : Box → List Box) (base : Base) (item : ItemData),
      base.in_lava = false → base.no_clip = false →
      iO base.pos.floorIVec3 = false → (∀ b, cF b = []) →
      base.vel = ⟨0, 0, 0⟩ →
      (tickItem getB iO cF base item).1.vel.y = -(49/1250) ∧
      (tickItem getB iO cF base item).1.pos.y =
        base.bb.min.y - 1/25 + base.heightOffset ∧
      (tickItem getB iO cF base item).1.on_ground = false) ∧
    (∀ (getB : IVec3 → Option (ℕ × ℕ)) (iO : IVec3 → Bool)
        (cF : Box → List Box) (base : Base) (item : ItemData) (ground : Box),
      base.in_lava = false → base.no_clip = false →
      iO base.pos.floorIVec3 = false → (∀ b, cF b = [ground]) →
      base.vel.x = 0 → base.vel.z = 0 →
      ground.min.x < base.bb.max.x → base.bb.min.x < ground.max.x →
      ground.min.z < base.bb.max.z → base.bb.min.z < ground.max.z →
      ground.max.y ≤ base.bb.min.y →
      base.vel.y - 4/100 < ground.max.y - base.bb.min.y →
      (tickItem getB iO cF base item).1.on_ground = true ∧
      (tickItem getB iO cF base item).1.vel.y = 0 ∧
      (tickItem getB iO cF base item).1.bb.min.y = ground.max.y) := by
  constructor
  · intro getB iO cF base item hla hnc hio hcf hvel
    have heq : (tickItem getB iO cF base item).1 =
        itemFrictionStep getB
          (tickBasePos [] (itemGravity base) (itemGravity base).vel 0) := by
      simp [tickItem, itemLavaJitter, itemGravity, hla, hio, hcf]
    have hnc2 : (itemGravity base).no_clip = false := hnc
    have hnil := tickBasePos_nil (itemGravity base) (itemGravity base).vel 0 hnc2
    have hfa := itemFriction_aerial getB
      (tickBasePos [] (itemGravity base) (itemGravity base).vel 0) hnil.1
    rw [heq]
    refine ⟨?_, ?_, hfa.2.2.1⟩
    · rw [hfa.1, hnil.2.1]
      simp [itemGravity, hvel]
      norm_num
    · rw [hfa.2.2.2, hnil.2.2.2]
      simp [itemGravity, hvel]
      linarith
  · intro getB iO cF base item ground hla hnc hio hcf hvx hvz hox1 hox2 hoz1
      hoz2 habove hpen
    have heq : (tickItem getB iO cF base item).1 =
        itemFrictionStep getB
          (tickBasePos [ground] (itemGravity base) (itemGravity base).vel 0) := by
      simp [tickItem, itemLavaJitter, itemGravity, hla, hio, hcf]
    have hdy : (itemGravity base).vel.y < 0 := by
      have : ground.max.y - base.bb.min.y ≤ 0 := by linarith [habove]
      simp only [itemGravity]
      linarith [hpen]
    have hland := tickBasePos_land ground (itemGravity base)
      (itemGravity base).vel 0 hnc hvx hvz hdy hox1 hox2 hoz1 hoz2 habove
      (by simpa [itemGravity] using hpen)
    have hfric := itemFriction_grounded_y0 getB
      (tickBasePos [ground] (itemGravity base) (itemGravity base).vel 0)
      hland.1 hland.2.1
    rw [heq]
    exact ⟨hfric.2.1, hfric.1, by rw [hfric.2.2]; exact hland.2.2.2.2⟩

/-- Witness for `item_tick_amended`: the free-fall part at a concrete
floating item, and the landing part at the concrete scenario item. -/
theorem item_tick_amended_witness :
    ((tickItem itemScenarioGetBlock (fun _ => false) (fun _ => [])
        { itemScenarioBase with vel := ⟨0, 0, 0⟩ } ⟨0⟩).1.vel.y = -(49/1250) ∧
     (tickItem itemScenarioGetBlock (fun _ => false) (fun _ => [])
        { itemScenarioBase with vel := ⟨0, 0, 0⟩ } ⟨0⟩).1.pos.y =
       { itemScenarioBase with vel := (⟨0, 0, 0⟩ : DVec3) }.bb.min.y - 1/25 +
         { itemScenarioBase with vel := (⟨0, 0, 0⟩ : DVec3) }.heightOffset ∧
     (tickItem itemScenarioGetBlock (fun _ => false) (fun _ => [])
        { itemScenarioBase with vel := ⟨0, 0, 0⟩ } ⟨0⟩).1.on_ground = false) ∧
    ((tickItem itemScenarioGetBlock (fun _ => false) itemScenarioCands
        itemScenarioBase ⟨0⟩).1.on_ground = true ∧
     (tickItem itemScenarioGetBlock (fun _ => false) itemScenarioCands
        itemScenarioBase ⟨0⟩).1.vel.y = 0 ∧
     (tickItem itemScenarioGetBlock (fun _ => false) itemScenarioCands
        itemScenarioBase ⟨0⟩).1.bb.min.y = itemScenarioGround.max.y) := by
  constructor
  · exact item_tick_amended.1 itemScenarioGetBlock (fun _ => false)
      (fun _ => []) { itemScenarioBase with vel := ⟨0, 0, 0⟩ } ⟨0⟩ rfl rfl rfl
      (fun _ => rfl) rfl
  · exact item_tick_amended.2 itemScenarioGetBlock (fun _ => false)
      itemScenarioCands itemScenarioBase ⟨0⟩ itemScenarioGround rfl rfl rfl
      (fun _ => rfl) rfl rfl
      (by norm_num [itemScenarioBase, itemScenarioGround])
      (by norm_num [itemScenarioBase, itemScenarioGround])
      (by norm_num [itemScenarioBase, itemScenarioGround])
      (by norm_num [itemScenarioBase, itemScenarioGround])
      (by norm_num [itemScenarioBase, itemScenarioGround])
      (by norm_num [itemScenarioBase, itemScenarioGround])

/-- `next(bits)` stays below `2^bits`. -/
theorem JavaRandom.next_lt (r : JavaRandom) (bits : ℕ) (hb : bits ≤ 48) :
    (r.next bits).1 < 2 ^ bits := by
  unfold JavaRandom.next
  simp only
  rw [Nat.shiftRight_eq_div_pow]
  refine (Nat.div_lt_iff_lt_mul (pow_pos (by norm_num : (0 : ℕ) < 2) _)).mpr ?_
  calc (r.seed * MULTIPLIER + ADDEND) % MASK < 2 ^ 48 :=
        Nat.mod_lt _ (by norm_num [JavaRandom.MASK])
    _ = 2 ^ bits * 2 ^ (48 - bits) := by
        rw [← pow_add]
        congr 1
        omega

/-- `next_double` lies in `[0, 1)`. -/
theorem JavaRandom.nextDouble_bounds (r : JavaRandom) :
    0 ≤ r.nextDouble.1 ∧ r.nextDouble.1 < 1 := by
  have hhi := r.next_lt 26 (by norm_num)
  have hlo := (r.next 26).2.next_lt 27 (by norm_num)
  unfold JavaRandom.nextDouble
  simp only
  constructor
  · positivity
  · rw [div_lt_one (by norm_num)]
    have hnat : (r.next 26).1 * 2 ^ 27 + ((r.next 26).2.next 27).1 < 2 ^ 53 := by
      have h1 : (r.next 26).1 * 2 ^ 27 + ((r.next 26).2.next 27).1 <
          ((r.next 26).1 + 1) * 2 ^ 27 := by
        rw [add_mul, one_mul]
        exact Nat.add_lt_add_left hlo _
      have h2 : ((r.next 26).1 + 1) * 2 ^ 27 ≤ 2 ^ 26 * 2 ^ 27 :=
        Nat.mul_le_mul_right _ hhi
      calc (r.next 26).1 * 2 ^ 27 + ((r.next 26).2.next 27).1
          < ((r.next 26).1 + 1) * 2 ^ 27 := h1
        _ ≤ 2 ^ 26 * 2 ^ 27 := h2
        _ = 2 ^ 53 := by norm_num
    calc ((((r.next 26).1 * 2 ^ 27 + ((r.next 26).2.next 27).1 : ℕ)) : ℚ)
        < ((2 ^ 53 : ℕ) : ℚ) := by exact_mod_cast hnat
      _ = 2 ^ 53 := by norm_num

/-- A factor in `[0, 1]` keeps a product on the coefficient's side of zero. -/
theorem mul_in_unit (v c : ℚ) (h0 : 0 ≤ v) (h1 : v ≤ 1) :
    (0 ≤ c → 0 ≤ v * c ∧ v * c ≤ c) ∧ (c ≤ 0 → c ≤ v * c ∧ v * c ≤ 0) := by
  constructor <;> intro hc <;> constructor <;> nlinarith

/-- The sampled ellipsoid semi-axes land in
`[3, 9) × [2, 6) × [3, 9) / 2` and the center lands strictly inside the
`16 × 8 × 16` box, for every pair of unit-interval draws. -/
theorem mkEllipsoid_ranges (d1 d2 : DVec3)
    (h1x : 0 ≤ d1.x) (h1x1 : d1.x < 1) (h1y : 0 ≤ d1.y) (h1y1 : d1.y < 1)
    (h1z : 0 ≤ d1.z) (h1z1 : d1.z < 1)
    (h2x : 0 ≤ d2.x) (h2x1 : d2.x < 1) (h2y : 0 ≤ d2.y) (h2y1 : d2.y < 1)
    (h2z : 0 ≤ d2.z) (h2z1 : d2.z < 1) :
    (3/2 ≤ (mkEllipsoid d1 d2).a.x ∧ (mkEllipsoid d1 d2).a.x < 9/2) ∧
    (1 ≤ (mkEllipsoid d1 d2).a.y ∧ (mkEllipsoid d1 d2).a.y < 3) ∧
    (3/2 ≤ (mkEllipsoid d1 d2).a.z ∧ (mkEllipsoid d1 d2).a.z < 9/2) ∧
    (0 < (mkEllipsoid d1 d2).b.x ∧ (mkEllipsoid d1 d2).b.x < 16) ∧
    (0 < (mkEllipsoid d1 d2).b.y ∧ (mkEllipsoid d1 d2).b.y < 8) ∧
    (0 < (mkEllipsoid d1 d2).b.z ∧ (mkEllipsoid d1 d2).b.z < 16) := by
  unfold mkEllipsoid
  simp only
  have hbx := mul_in_unit d2.x (16 - (d1.x * 6 + 3) - 2) h2x (le_of_lt h2x1)
  have hby := mul_in_unit d2.y (8 - (d1.y * 4 + 2) - 4) h2y (le_of_lt h2y1)
  have hbz := mul_in_unit d2.z (16 - (d1.z * 6 + 3) - 2) h2z (le_of_lt h2z1)
  refine ⟨⟨by linarith, by linarith⟩, ⟨by linarith, by linarith⟩,
    ⟨by linarith, by linarith⟩, ?_, ?_, ?_⟩
  · have hc : (0 : ℚ) ≤ 16 - (d1.x * 6 + 3) - 2 := by linarith
    obtain ⟨ha, hb⟩ := hbx.1 hc
    exact ⟨by linarith, by linarith⟩
  · rcases le_total 0 (8 - (d1.y * 4 + 2) - 4) with hc | hc
    · obtain ⟨ha, hb⟩ := hby.1 hc
      exact ⟨by linarith, by linarith⟩
    · obtain ⟨ha, hb⟩ := hby.2 hc
      exact ⟨by linarith, by linarith⟩
  · have hc : (0 : ℚ) ≤ 16 - (d1.z * 6 + 3) - 2 := by linarith
    obtain ⟨ha, hb⟩ := hbz.1 hc
    exact ⟨by linarith, by linarith⟩

/-- Every ellipsoid sampled by `sampleEllipsoid` satisfies the ranges. -/
theorem sampleEllipsoid_ranges (r : JavaRandom) :
    (3/2 ≤ (sampleEllipsoid r).1.a.x ∧ (sampleEllipsoid r).1.a.x < 9/2) ∧
    (1 ≤ (sampleEllipsoid r).1.a.y ∧ (sampleEllipsoid r).1.a.y < 3) ∧
    (3/2 ≤ (sampleEllipsoid r).1.a.z ∧ (sampleEllipsoid r).1.a.z < 9/2) ∧
    (0 < (sampleEllipsoid r).1.b.x ∧ (sampleEllipsoid r).1.b.x < 16) ∧
    (0 < (sampleEllipsoid r).1.b.y ∧ (sampleEllipsoid r).1.b.y < 8) ∧
    (0 < (sampleEllipsoid r).1.b.z ∧ (sampleEllipsoid r).1.b.z < 16) := by
  unfold sampleEllipsoid JavaRandom.nextDVec3
  simp only
  refine mkEllipsoid_ranges _ _ ?_ ?_ ?_ ?_ ?_ ?_ ?_ ?_ ?_ ?_ ?_ ?_ <;>
    first
      | exact (JavaRandom.nextDouble_bounds _).1
      | exact (JavaRandom.nextDouble_bounds _).2

/-- `sampleEllipsoids` returns exactly `n` ellipsoids, all in range. -/
theorem sampleEllipsoids_spec (n : ℕ) (r : JavaRandom) :
    (sampleEllipsoids n r).1.length = n ∧
    ∀ e ∈ (sampleEllipsoids n r).1,
      (3/2 ≤ e.a.x ∧ e.a.x < 9/2) ∧
      (1 ≤ e.a.y ∧ e.a.y < 3) ∧
      (3/2 ≤ e.a.z ∧ e.a.z < 9/2) ∧
      (0 < e.b.x ∧ e.b.x < 16) ∧
      (0 < e.b.y ∧ e.b.y < 8) ∧
      (0 < e.b.z ∧ e.b.z < 16) := by
  induction n generalizing r with
  | zero => simp [sampleEllipsoids]
  | succ n ih =>
    refine ⟨?_, ?_⟩
    · simp [sampleEllipsoids, (ih _).1]
    · intro e he
      simp only [sampleEllipsoids, List.mem_cons] at he
      rcases he with he | he
      · subst he
        exact sampleEllipsoid_ranges r
      · exact (ih _).2 e he

/-- Folding `markEllipsoid` produces the OR of the initial mask with the
per-ellipsoid membership tests. -/
theorem foldl_markEllipsoid (es : List Ellipsoid) (f : ℕ → ℕ → ℕ → Bool)
    (dx dz dy : ℕ) :
    es.foldl markEllipsoid f dx dz dy =
      (f dx dz dy ||
        es.any fun e => inLakeBounds dx dz dy && inEllipsoid e dx dz dy) := by
  induction es generalizing f with
  | nil => simp
  | cons e es ih =>
    rw [List.foldl_cons, ih (markEllipsoid f e)]
    simp [markEllipsoid, Bool.or_assoc]

/-- The bounded sampler with bound 4 yields at most 3. -/
theorem nextIntPow2_four_le (r : JavaRandom) : (r.nextIntPow2 4).1 ≤ 3 := by
  have hb := r.next_lt 31 (by norm_num)
  unfold JavaRandom.nextIntPow2
  simp only
  rw [Nat.shiftRight_eq_div_pow]
  have : 4 * (r.next 31).1 < 4 * 2 ^ 31 := by omega
  have hlt : 4 * (r.next 31).1 / 2 ^ 31 < 4 :=
    (Nat.div_lt_iff_lt_mul (pow_pos (by norm_num : (0 : ℕ) < 2) _)).mpr
      (by calc 4 * (r.next 31).1 < 4 * 2 ^ 31 := this
            _ = 4 * 2 ^ 31 := rfl)
  omega

/-- C6: for every PRNG state, the lake fill-mask phase ORs together
`count = next_int_bounded(4) + 4` ellipsoids with `4 ≤ count ≤ 8` (in fact
`count ≤ 7`): a cell is marked iff it is an interior cell
(`1 ≤ dx, dz < 15`, `1 ≤ dy < 7`) lying inside at least one sampled
ellipsoid; every sampled ellipsoid has semi-axes drawn from
`(3..9, 2..6, 3..9) / 2` and center strictly inside the `16 × 8 × 16`
box. -/
theorem lake_fill_mask_spec (r : JavaRandom) :
    (lakeFillPhase r).count = (r.nextIntPow2 4).1 + 4 ∧
    4 ≤ (lakeFillPhase r).count ∧ (lakeFillPhase r).count ≤ 8 ∧
    (lakeFillPhase r).ellipsoids.length = (lakeFillPhase r).count ∧
    (∀ dx dz dy : ℕ,
      (lakeFillPhase r).fill dx dz dy = true ↔
        (inLakeBounds dx dz dy = true ∧
          ∃ e ∈ (lakeFillPhase r).ellipsoids, inEllipsoid e dx dz dy = true)) ∧
    (∀ e ∈ (lakeFillPhase r).ellipsoids,
      (3/2 ≤ e.a.x ∧ e.a.x < 9/2) ∧
      (1 ≤ e.a.y ∧ e.a.y < 3) ∧
      (3/2 ≤ e.a.z ∧ e.a.z < 9/2) ∧
      (0 < e.b.x ∧ e.b.x < 16) ∧
      (0 < e.b.y ∧ e.b.y < 8) ∧
      (0 < e.b.z ∧ e.b.z < 16)) := by
  have hcount := nextIntPow2_four_le r
  have hspec := sampleEllipsoids_spec ((r.nextIntPow2 4).1 + 4) (r.nextIntPow2 4).2
  refine ⟨rfl, by simp [lakeFillPhase], by simp [lakeFillPhase]; omega, ?_, ?_, ?_⟩
  · exact hspec.1
  · intro dx dz dy
    simp only [lakeFillPhase]
    rw [foldl_markEllipsoid]
    simp only [List.any_eq_true, Bool.and_eq_true, Bool.false_or]
    constructor
    · rintro ⟨e, he, hb, hi⟩
      exact ⟨hb, e, he, hi⟩
    · rintro ⟨hb, e, he, hi⟩
      exact ⟨e, he, hb, hi⟩
  · exact hspec.2

/-- Membership in an inclusive integer range. -/
theorem mem_intRange {a lo hi : ℤ} : a ∈ intRange lo hi ↔ lo ≤ a ∧ a ≤ hi := by
  unfold intRange
  rw [List.mem_map]
  constructor
  · rintro ⟨i, hi2, rfl⟩
    rw [List.mem_range] at hi2
    omega
  · rintro ⟨h1, h2⟩
    refine ⟨(a - lo).toNat, ?_, ?_⟩
    · rw [List.mem_range]
      omega
    · omega

/-- Membership in the terrain rectangle. -/
theorem mem_terrainRect {p : ℤ × ℤ} {m : ℕ} {cx cz : ℤ} :
    p ∈ terrainRect m cx cz ↔
      (loadBounds m cx cz).1 ≤ p.1 ∧ p.1 ≤ (loadBounds m cx cz).2.1 ∧
      (loadBounds m cx cz).2.2.1 ≤ p.2 ∧ p.2 ≤ (loadBounds m cx cz).2.2.2 := by
  simp only [terrainRect, List.mem_flatMap, List.mem_map, mem_intRange]
  constructor
  · rintro ⟨x, hx, z, hz, rfl⟩
    exact ⟨hx.1, hx.2, hz.1, hz.2⟩
  · rintro ⟨h1, h2, h3, h4⟩
    exact ⟨p.1, ⟨h1, h2⟩, p.2, ⟨h3, h4⟩, rfl⟩

/-- Membership in the populate rectangle. -/
theorem mem_populateRectL {p : ℤ × ℤ} {m : ℕ} {cx cz : ℤ} :
    p ∈ populateRectL m cx cz ↔
      (loadBounds m cx cz).1 ≤ p.1 ∧ p.1 ≤ (loadBounds m cx cz).2.1 - 1 ∧
      (loadBounds m cx cz).2.2.1 ≤ p.2 ∧ p.2 ≤ (loadBounds m cx cz).2.2.2 - 1 := by
  simp only [populateRectL, List.mem_flatMap, List.mem_map, mem_intRange]
  constructor
  · rintro ⟨x, hx, z, hz, rfl⟩
    exact ⟨hx.1, hx.2, hz.1, hz.2⟩
  · rintro ⟨h1, h2, h3, h4⟩
    exact ⟨p.1, ⟨h1, h2⟩, p.2, ⟨h3, h4⟩, rfl⟩

/-- The requested chunk always lies inside its loading rectangle. -/
theorem loadBounds_le (m : ℕ) (cx cz : ℤ) :
    (loadBounds m cx cz).1 ≤ cx ∧ cx ≤ (loadBounds m cx cz).2.1 ∧
    (loadBounds m cx cz).2.2.1 ≤ cz ∧ cz ≤ (loadBounds m cx cz).2.2.2 := by
  dsimp only [loadBounds]
  refine ⟨?_, ?_, ?_, ?_⟩ <;> split_ifs <;> omega

/-- After the terrain loop: coherence is preserved, and a populated entry is
exactly the old one, except that chunks of the rectangle that had no entry
now carry mask 0. -/
theorem loadTerrain_spec {C : Type} (gen : ℤ → ℤ → C) (rect : List (ℤ × ℤ)) :
    ∀ st : GenState C,
      (∀ p, (st.populated p).isSome ↔ (st.worldChunks p).isSome) →
      ((∀ p, ((loadTerrain gen st rect).populated p).isSome ↔
          ((loadTerrain gen st rect).worldChunks p).isSome) ∧
       (∀ p, (loadTerrain gen st rect).populated p =
          if p ∈ rect ∧ st.populated p = none then some 0
          else st.populated p)) := by
  induction rect with
  | nil =>
    intro st hcoh
    refine ⟨hcoh, fun p => ?_⟩
    simp [loadTerrain]
  | cons tc rest ih =>
    intro st hcoh
    have hstep : loadTerrain gen st (tc :: rest) =
        loadTerrain gen (loadTerrainStep gen st tc) rest := rfl
    have hfacts :
        (∀ p, ((loadTerrainStep gen st tc).populated p).isSome ↔
          ((loadTerrainStep gen st tc).worldChunks p).isSome) ∧
        (∀ p, (loadTerrainStep gen st tc).populated p =
          if p = tc ∧ st.populated p = none then some 0
          else st.populated p) := by
      unfold loadTerrainStep
      by_cases hw : (st.worldChunks tc).isSome
      · rw [if_pos hw]
        refine ⟨hcoh, fun p => ?_⟩
        split_ifs with hc
        · exfalso
          obtain ⟨rfl, hnone⟩ := hc
          rw [Option.eq_none_iff_forall_not_mem] at hnone
          have := (hcoh p).mpr hw
          rw [Option.isSome_iff_exists] at this
          obtain ⟨v, hv⟩ := this
          exact hnone v hv
        · rfl
      · rw [if_neg hw]
        have hpn : st.populated tc = none := by
          rw [← Option.not_isSome_iff_eq_none]
          intro hsome
          exact hw ((hcoh tc).mp hsome)
        cases hter : st.terrainChunks tc with
        | some chunk =>
          refine ⟨fun p => ?_, fun p => ?_⟩
          · by_cases hp : p = tc <;> simp [fupd, hp, hcoh p]
          · by_cases hp : p = tc
            · subst hp
              simp [fupd, hpn]
            · simp [fupd, hp]
        | none =>
          refine ⟨fun p => ?_, fun p => ?_⟩
          · by_cases hp : p = tc <;> simp [fupd, hp, hcoh p]
          · by_cases hp : p = tc
            · subst hp
              simp [fupd, hpn]
            · simp [fupd, hp]
    obtain ⟨hcoh1, hpt1⟩ := hfacts
    obtain ⟨ihcoh, ihpt⟩ := ih (loadTerrainStep gen st tc) hcoh1
    refine ⟨by rw [hstep]; exact ihcoh, fun p => ?_⟩
    rw [hstep, ihpt p, hpt1 p]
    by_cases hp : p = tc
    · subst hp
      by_cases hn : st.populated p = none
      · simp [hn, List.mem_cons]
      · simp [hn, List.mem_cons]
    · by_cases hr : p ∈ rest
      · simp [hp, hr, List.mem_cons]
      · simp [hp, hr, List.mem_cons]

/-- One populate run succeeds when the four touched entries are present; it
ORs `bitsFor` into every present mask and preserves entry and chunk
presence. -/
theorem applyPopulate_ok {C : Type}
    (pf : ℤ → ℤ → (ℤ × ℤ → Option C) → (ℤ × ℤ → Option C))
    (st : GenState C) (pc : ℤ × ℤ)
    (hpop : ∀ a b w p, ((pf a b w) p).isSome ↔ (w p).isSome)
    (h00 : (st.populated pc).isSome)
    (h10 : (st.populated (pc.1 + 1, pc.2)).isSome)
    (h01 : (st.populated (pc.1, pc.2 + 1)).isSome)
    (h11 : (st.populated (pc.1 + 1, pc.2 + 1)).isSome) :
    ∃ st1, applyPopulate pf st pc = Except.ok st1 ∧
      (∀ q mq, st.populated q = some mq →
        st1.populated q = some (mq ||| bitsFor pc q)) ∧
      (∀ p, (st1.populated p).isSome ↔ (st.populated p).isSome) ∧
      (∀ p, (st1.worldChunks p).isSome ↔ (st.worldChunks p).isSome) := by
  obtain ⟨m00, e00⟩ := Option.isSome_iff_exists.mp h00
  obtain ⟨m10, e10⟩ := Option.isSome_iff_exists.mp h10
  obtain ⟨m01, e01⟩ := Option.isSome_iff_exists.mp h01
  obtain ⟨m11, e11⟩ := Option.isSome_iff_exists.mp h11
  refine ⟨_, by unfold applyPopulate; rw [e00, e10, e01, e11], ?_, ?_, ?_⟩
  · intro q mq hq
    dsimp only
    unfold bitsFor
    split_ifs with hq1 hq2 hq3 hq4
    · rw [hq1] at hq
      rw [e11] at hq
      injection hq with hq
      rw [hq]
    · rw [hq2] at hq
      rw [e01] at hq
      injection hq with hq
      rw [hq]
    · rw [hq3] at hq
      rw [e10] at hq
      injection hq with hq
      rw [hq]
    · rw [hq4] at hq
      rw [e00] at hq
      injection hq with hq
      rw [hq]
    · rw [hq]
      simp
  · intro p
    dsimp only
    split_ifs with hp1 hp2 hp3 hp4
    · subst hp1
      simp [e11]
    · subst hp2
      simp [e01]
    · subst hp3
      simp [e10]
    · subst hp4
      simp [e00]
    · exact Iff.rfl
  · intro p
    dsimp only
    exact hpop pc.1 pc.2 st.worldChunks p

/-- The populate loop succeeds when every run's four entries are present,
and a present mask ends as the OR of its start value with the bits of all
runs that touch it. -/
theorem populateLoop_spec {C : Type}
    (pf : ℤ → ℤ → (ℤ × ℤ → Option C) → (ℤ × ℤ → Option C))
    (hpop : ∀ a b w p, ((pf a b w) p).isSome ↔ (w p).isSome)
    (runs : List (ℤ × ℤ)) :
    ∀ (st : GenState C) (q : ℤ × ℤ) (mq : ℕ),
      (∀ pc ∈ runs,
        (st.populated pc).isSome ∧ (st.populated (pc.1 + 1, pc.2)).isSome ∧
        (st.populated (pc.1, pc.2 + 1)).isSome ∧
        (st.populated (pc.1 + 1, pc.2 + 1)).isSome) →
      st.populated q = some mq →
      ∃ st2, populateLoop pf runs st = Except.ok st2 ∧
        st2.populated q =
          some (runs.foldl (fun acc pc => acc ||| bitsFor pc q) mq) ∧
        (∀ p, (st2.populated p).isSome ↔ (st.populated p).isSome) ∧
        (∀ p, (st2.worldChunks p).isSome ↔ (st.worldChunks p).isSome) := by
  induction runs with
  | nil =>
    intro st q mq _ hq
    exact ⟨st, rfl, by simpa using hq, fun _ => Iff.rfl, fun _ => Iff.rfl⟩
  | cons pc rest ih =>
    intro st q mq hpres hq
    obtain ⟨hpc, hrest⟩ := List.forall_mem_cons.mp hpres
    obtain ⟨st1, hok, hval1, hp1, hw1⟩ :=
      applyPopulate_ok pf st pc hpop hpc.1 hpc.2.1 hpc.2.2.1 hpc.2.2.2
    have hq1 : st1.populated q = some (mq ||| bitsFor pc q) := hval1 q mq hq
    have hpres1 : ∀ pc2 ∈ rest,
        (st1.populated pc2).isSome ∧ (st1.populated (pc2.1 + 1, pc2.2)).isSome ∧
        (st1.populated (pc2.1, pc2.2 + 1)).isSome ∧
        (st1.populated (pc2.1 + 1, pc2.2 + 1)).isSome := by
      intro pc2 h2
      obtain ⟨a, b, c, d⟩ := hrest pc2 h2
      exact ⟨(hp1 _).mpr a, (hp1 _).mpr b, (hp1 _).mpr c, (hp1 _).mpr d⟩
    obtain ⟨st2, hloop, hval2, hp2, hw2⟩ := ih st1 q (mq ||| bitsFor pc q) hpres1 hq1
    refine ⟨st2, ?_, ?_, ?_, ?_⟩
    · unfold populateLoop
      rw [hok]
      exact hloop
    · rw [hval2]
      rfl
    · intro p
      exact (hp2 p).trans (hp1 p)
    · intro p
      exact (hw2 p).trans (hw1 p)

/-- A one-element inclusive range. -/
theorem intRange_single (a : ℤ) : intRange a a = [a] := by
  unfold intRange
  have h : (a + 1 - a).toNat = 1 := by omega
  rw [h]
  have h1 : List.range 1 = [0] := rfl
  rw [h1]
  simp

/-- A two-element inclusive range. -/
theorem intRange_pair (a : ℤ) : intRange (a - 1) a = [a - 1, a] := by
  unfold intRange
  have h : (a + 1 - (a - 1)).toNat = 2 := by omega
  rw [h]
  have h2 : List.range 2 = [0, 1] := rfl
  rw [h2]
  simp

/-- The populate run at the chunk itself contributes the `POS_POS` bit. -/
theorem bitsFor_self (a b : ℤ) : bitsFor (a, b) (a, b) = 8 := by
  dsimp only [bitsFor]
  have c1 : ¬((a, b) = (a + 1, b + 1)) := by
    rw [Prod.mk.injEq]
    intro h
    omega
  have c2 : ¬((a, b) = (a, b + 1)) := by
    rw [Prod.mk.injEq]
    intro h
    omega
  have c3 : ¬((a, b) = (a + 1, b)) := by
    rw [Prod.mk.injEq]
    intro h
    omega
  rw [if_neg c1, if_neg c2, if_neg c3, if_pos rfl]
  rfl

/-- The run at the `-x` neighbor contributes the `NEG_POS` bit. -/
theorem bitsFor_left (a b : ℤ) : bitsFor (a - 1, b) (a, b) = 4 := by
  dsimp only [bitsFor]
  have c1 : ¬((a, b) = (a - 1 + 1, b + 1)) := by
    rw [Prod.mk.injEq]
    intro h
    omega
  have c2 : ¬((a, b) = (a - 1, b + 1)) := by
    rw [Prod.mk.injEq]
    intro h
    omega
  have c3 : ((a, b) = (a - 1 + 1, b)) := by
    rw [Prod.mk.injEq]
    constructor <;> omega
  rw [if_neg c1, if_neg c2, if_pos c3]
  rfl

/-- The run at the `-z` neighbor contributes the `POS_NEG` bit. -/
theorem bitsFor_up (a b : ℤ) : bitsFor (a, b - 1) (a, b) = 2 := by
  dsimp only [bitsFor]
  have c1 : ¬((a, b) = (a + 1, b - 1 + 1)) := by
    rw [Prod.mk.injEq]
    intro h
    omega
  have c2 : ((a, b) = (a, b - 1 + 1)) := by
    rw [Prod.mk.injEq]
    constructor <;> omega
  rw [if_neg c1, if_pos c2]
  rfl

/-- The run at the diagonal neighbor contributes the `NEG_NEG` bit. -/
theorem bitsFor_diag (a b : ℤ) : bitsFor (a - 1, b - 1) (a, b) = 1 := by
  dsimp only [bitsFor]
  have c1 : ((a, b) = (a - 1 + 1, b - 1 + 1)) := by
    rw [Prod.mk.injEq]
    constructor <;> omega
  rw [if_pos c1]
  rfl

/-- The `NEG_X` corner-bit test, as a disjunction of mask values. -/
theorem land_negX (m : ℕ) (h : m < 16) :
    m &&& POPULATED_NEG_X = POPULATED_NEG_X ↔
      (m = 5 ∨ m = 7 ∨ m = 13 ∨ m = 15) := by
  interval_cases m <;> decide

/-- The `POS_X` corner-bit test, as a disjunction of mask values. -/
theorem land_posX (m : ℕ) (h : m < 16) :
    m &&& POPULATED_POS_X = POPULATED_POS_X ↔
      (m = 10 ∨ m = 11 ∨ m = 14 ∨ m = 15) := by
  interval_cases m <;> decide

/-- The `NEG_Z` corner-bit test, as a disjunction of mask values. -/
theorem land_negZ (m : ℕ) (h : m < 16) :
    m &&& POPULATED_NEG_Z = POPULATED_NEG_Z ↔
      (m = 3 ∨ m = 7 ∨ m = 11 ∨ m = 15) := by
  interval_cases m <;> decide

/-- The `POS_Z` corner-bit test, as a disjunction of mask values. -/
theorem land_posZ (m : ℕ) (h : m < 16) :
    m &&& POPULATED_POS_Z = POPULATED_POS_Z ↔
      (m = 12 ∨ m = 13 ∨ m = 14 ∨ m = 15) := by
  interval_cases m <;> decide

/-- Mask 0 matches no corner-bit pattern (`0 = bits` is false for each). -/
theorem zero_ne_cornerBits :
    ¬((0 : ℕ) = POPULATED_NEG_X) ∧ ¬((0 : ℕ) = POPULATED_POS_X) ∧
    ¬((0 : ℕ) = POPULATED_NEG_Z) ∧ ¬((0 : ℕ) = POPULATED_POS_Z) := by
  decide

/-- Every corner-bit pattern is at least 2 (mask 1 never matches one). -/
theorem two_le_cornerBits :
    (2 : ℕ) ≤ POPULATED_NEG_X ∧ (2 : ℕ) ≤ POPULATED_POS_X ∧
    (2 : ℕ) ≤ POPULATED_NEG_Z ∧ (2 : ℕ) ≤ POPULATED_POS_Z := by
  decide

/-- For every entry mask other than `ALL`, the populate runs of the expanded
rectangle OR the missing corner bits in, always completing the requested
chunk's mask to `ALL = 15`. -/
theorem populate_mask_complete (m : ℕ) (cx cz : ℤ) (h16 : m < 16)
    (hne : m ≠ 15) :
    (populateRectL m cx cz).foldl (fun acc pc => acc ||| bitsFor pc (cx, cz)) m
      = 15 := by
  interval_cases m <;>
    (first
      | exact absurd rfl hne
      | (norm_num [populateRectL, loadBounds, land_negX, land_posX, land_negZ,
          land_posZ, zero_ne_cornerBits.1, zero_ne_cornerBits.2.1,
          zero_ne_cornerBits.2.2.1, zero_ne_cornerBits.2.2.2,
          two_le_cornerBits.1, two_le_cornerBits.2.1,
          two_le_cornerBits.2.2.1, two_le_cornerBits.2.2.2,
          intRange_single, intRange_pair, bitsFor_self,
          bitsFor_left, bitsFor_up, bitsFor_diag]
         decide))

/-- C5 (amended): on a coherent source state (an entry iff a staging chunk,
masks below 16), for a chunk whose mask is not yet `ALL`, `load` succeeds,
the mask reaches exactly `POPULATED_ALL` when the chunk is removed (the
requested chunk's mask is completed by the populate runs of the expanded
rectangle), and the returned state holds the chunk neither in the populated
map nor in the staging world; a `load` for a chunk whose mask is already
`POPULATED_ALL` is rejected (the `assert_ne!` fires).  (The code does not
guarantee at-most-once delivery: see the counterexample.) -/
theorem generator_load_spec {C : Type} (gen : ℤ → ℤ → C)
    (pf : ℤ → ℤ → (ℤ × ℤ → Option C) → (ℤ × ℤ → Option C))
    (st : GenState C) (cx cz : ℤ)
    (hpop : ∀ a b w p, ((pf a b w) p).isSome ↔ (w p).isSome)
    (hcoh : ∀ p, (st.populated p).isSome ↔ (st.worldChunks p).isSome)
    (hmask : ∀ p m, st.populated p = some m → m < 16)
    (hne : (st.populated (cx, cz)).getD 0 ≠ POPULATED_ALL) :
    (∃ (c : C) (st2 : GenState C),
      load gen pf st cx cz = Except.ok (c, st2) ∧
      st2.populated (cx, cz) = none ∧
      st2.worldChunks (cx, cz) = none) ∧
    (populateRectL ((st.populated (cx, cz)).getD 0) cx cz).foldl
      (fun acc pc => acc ||| bitsFor pc (cx, cz))
      ((st.populated (cx, cz)).getD 0) = POPULATED_ALL ∧
    (∀ st' : GenState C, st'.populated (cx, cz) = some POPULATED_ALL →
      load gen pf st' cx cz = Except.error "incoherent") := by
  have h16 : (st.populated (cx, cz)).getD 0 < 16 := by
    cases hsp : st.populated (cx, cz) with
    | none => simp [hsp]
    | some v =>
      have := hmask _ v hsp
      simpa [hsp] using this
  have hne15 : (st.populated (cx, cz)).getD 0 ≠ 15 := by
    simpa [POPULATED_ALL] using hne
  have hmask15 := populate_mask_complete ((st.populated (cx, cz)).getD 0)
    cx cz h16 hne15
  obtain ⟨tcoh, tpt⟩ :=
    loadTerrain_spec gen (terrainRect ((st.populated (cx, cz)).getD 0) cx cz)
      st hcoh
  have hmem : (cx, cz) ∈ terrainRect ((st.populated (cx, cz)).getD 0) cx cz := by
    rw [mem_terrainRect]
    have h := loadBounds_le ((st.populated (cx, cz)).getD 0) cx cz
    exact ⟨h.1, h.2.1, h.2.2.1, h.2.2.2⟩
  have h1v :
      (loadTerrain gen st
        (terrainRect ((st.populated (cx, cz)).getD 0) cx cz)).populated (cx, cz)
      = some ((st.populated (cx, cz)).getD 0) := by
    rw [tpt]
    cases hsp : st.populated (cx, cz) with
    | none =>
      have hmem0 : (cx, cz) ∈ terrainRect 0 cx cz := by
        simpa [hsp] using hmem
      simp [hmem0, hsp]
    | some v => simp [hsp]
  have hpres : ∀ p ∈ terrainRect ((st.populated (cx, cz)).getD 0) cx cz,
      ((loadTerrain gen st
        (terrainRect ((st.populated (cx, cz)).getD 0) cx cz)).populated p).isSome := by
    intro p hp
    rw [tpt]
    by_cases hq : st.populated p = none
    · rw [if_pos ⟨hp, hq⟩]
      rfl
    · rw [if_neg (fun hcon => hq hcon.2)]
      exact Option.isSome_iff_ne_none.mpr hq
  have hcorner : ∀ pc ∈ populateRectL ((st.populated (cx, cz)).getD 0) cx cz,
      ((loadTerrain gen st
        (terrainRect ((st.populated (cx, cz)).getD 0) cx cz)).populated pc).isSome ∧
      ((loadTerrain gen st
        (terrainRect ((st.populated (cx, cz)).getD 0) cx cz)).populated
          (pc.1 + 1, pc.2)).isSome ∧
      ((loadTerrain gen st
        (terrainRect ((st.populated (cx, cz)).getD 0) cx cz)).populated
          (pc.1, pc.2 + 1)).isSome ∧
      ((loadTerrain gen st
        (terrainRect ((st.populated (cx, cz)).getD 0) cx cz)).populated
          (pc.1 + 1, pc.2 + 1)).isSome := by
    intro pc hpc
    rw [mem_populateRectL] at hpc
    refine ⟨?_, ?_, ?_, ?_⟩ <;>
      (refine hpres _ (mem_terrainRect.mpr ⟨?_, ?_, ?_, ?_⟩) <;>
        (dsimp only; omega))
  obtain ⟨st2, hloop, hval, hppres, hwpres⟩ :=
    populateLoop_spec pf hpop
      (populateRectL ((st.populated (cx, cz)).getD 0) cx cz)
      (loadTerrain gen st (terrainRect ((st.populated (cx, cz)).getD 0) cx cz))
      (cx, cz) ((st.populated (cx, cz)).getD 0) hcorner h1v
  have hval15 : st2.populated (cx, cz) = some 15 := by
    rw [hval, hmask15]
  have hwchunk : (st2.worldChunks (cx, cz)).isSome := by
    rw [hwpres]
    exact (tcoh (cx, cz)).mp (by rw [h1v]; rfl)
  obtain ⟨c, hc⟩ := Option.isSome_iff_exists.mp hwchunk
  refine ⟨⟨c, { st2 with populated := fupd st2.populated (cx, cz) none
                         worldChunks := fupd st2.worldChunks (cx, cz) none },
      ?_, ?_, ?_⟩, hmask15, ?_⟩
  · simp only [load]
    rw [if_neg hne, hloop]
    dsimp only
    rw [hval15]
    dsimp only
    rw [if_neg (by decide : ¬((15 : ℕ) ≠ POPULATED_ALL)), hc]
  · simp [fupd]
  · simp [fupd]
  · intro st' h
    simp only [load]
    rw [h]
    rfl

/-- C5 (counterexample): starting from the empty source state, `load (0,0)`
succeeds, and calling `load (0,0)` again on the returned state succeeds
again — the same chunk is returned twice, because the successful removal
erases the chunk's entry, so nothing rejects the repeated request. -/
theorem generator_load_twice :
    (load (fun _ _ => ()) (fun _ _ w => w) unitGenState0 0 0).isOk = true ∧
    ((load (fun _ _ => ()) (fun _ _ w => w) unitGenState0 0 0).toOption.map
      (fun r => (load (fun _ _ => ()) (fun _ _ w => w) r.2 0 0).isOk))
      = some true := by
  constructor <;> decide

/-- Witness for `generator_load_spec`: the empty source state over trivial
chunks, at chunk `(0, 0)`. -/
theorem generator_load_spec_witness :
    (∃ (c : Unit) (st2 : GenState Unit),
      load (fun _ _ => ()) (fun _ _ w => w) unitGenState0 0 0 =
        Except.ok (c, st2) ∧
      st2.populated (0, 0) = none ∧
      st2.worldChunks (0, 0) = none) ∧
    (populateRectL ((unitGenState0.populated (0, 0)).getD 0) 0 0).foldl
      (fun acc pc => acc ||| bitsFor pc (0, 0))
      ((unitGenState0.populated (0, 0)).getD 0) = POPULATED_ALL ∧
    (∀ st' : GenState Unit, st'.populated (0, 0) = some POPULATED_ALL →
      load (fun _ _ => ()) (fun _ _ w => w) st' 0 0 =
        Except.error "incoherent") :=
  generator_load_spec (fun _ _ => ()) (fun _ _ w => w) unitGenState0 0 0
    (fun _ _ _ _ => Iff.rfl) (fun _ => Iff.rfl)
    (fun _ _ h => Option.noConfusion h) (by decide)

/-- `calc_chunk_pos` ignores the y component. -/
theorem calcChunkPos_eq (x y z : ℤ) :
    calcChunkPos ⟨x, y, z⟩ = chunkXZ x z := rfl

/-- One iterator step in the middle of a column (`cursor.y ≠ min.y`): the
cache is kept, the current block (or the sentinel) is yielded, and the
cursor advances. -/
theorem areaNext_mid (world : AreaWorld) (min max : IVec3) (x y z : ℤ)
    (hy : y ≠ min.y) (hmax : (⟨x, y, z⟩ : IVec3) ≠ max) :
    areaNext world
        ⟨some (chunkXZ x z, world.chunks (chunkXZ x z)), min, max, ⟨x, y, z⟩⟩ =
      some (lookupBlock world ⟨x, y, z⟩,
        ⟨some (chunkXZ x z, world.chunks (chunkXZ x z)), min, max,
          if y + 1 = max.y then
            (if z + 1 = max.z then ⟨x + 1, min.y, min.z⟩
              else ⟨x, min.y, z + 1⟩)
          else ⟨x, y + 1, z⟩⟩) := by
  cases hch : world.chunks (chunkXZ x z) <;>
    simp [areaNext, lookupBlock, hy, hmax, hch, calcChunkPos_eq]

/-- One iterator step at the start of a column (`cursor.y = min.y`): any
valid cache is refreshed to exactly the column's chunk, the current block
(or the sentinel) is yielded, and the cursor advances. -/
theorem areaNext_colStart (world : AreaWorld) (min max : IVec3) (x z : ℤ)
    (c0 : Option ((ℤ × ℤ) × Option (IVec3 → ℕ × ℕ))) (hc : CacheOk world c0)
    (hmax : (⟨x, min.y, z⟩ : IVec3) ≠ max) :
    areaNext world ⟨c0, min, max, ⟨x, min.y, z⟩⟩ =
      some (lookupBlock world ⟨x, min.y, z⟩,
        ⟨some (chunkXZ x z, world.chunks (chunkXZ x z)), min, max,
          if min.y + 1 = max.y then
            (if z + 1 = max.z then ⟨x + 1, min.y, min.z⟩
              else ⟨x, min.y, z + 1⟩)
          else ⟨x, min.y + 1, z⟩⟩) := by
  cases c0 with
  | none =>
    cases hch : world.chunks (chunkXZ x z) <;>
      simp [areaNext, lookupBlock, hmax, hch, calcChunkPos_eq]
  | some pair =>
    obtain ⟨ccp, co⟩ := pair
    have hco : co = world.chunks ccp := hc ccp co rfl
    subst hco
    by_cases hsame : ccp = chunkXZ x z
    · subst hsame
      cases hch : world.chunks (chunkXZ x z) <;>
        simp [areaNext, lookupBlock, hmax, hch, calcChunkPos_eq]
    · cases hch : world.chunks (chunkXZ x z) <;>
        simp [areaNext, lookupBlock, hmax, hsame, hch, calcChunkPos_eq]

/-- Unfold one fueled iterator step. -/
theorem areaRun_succ (world : AreaWorld) (n : ℕ) (s : AreaCursor) :
    areaRun world (n + 1) s =
      match areaNext world s with
      | none => []
      | some (it, s2) => it :: areaRun world n s2 := rfl

/-- Running the iterator down the rest of a column yields exactly the
column's per-position queries and ends at the next column's start. -/
theorem areaRun_colTail (world : AreaWorld) (min max : IVec3) (x z : ℤ) :
    ∀ (k m : ℕ) (y : ℤ), 1 ≤ k → (k : ℤ) = max.y - y → min.y < y →
      areaRun world (k + m)
          ⟨some (chunkXZ x z, world.chunks (chunkXZ x z)), min, max, ⟨x, y, z⟩⟩ =
        (columnPoints x y z k).map (fun p => lookupBlock world p) ++
          areaRun world m
            ⟨some (chunkXZ x z, world.chunks (chunkXZ x z)), min, max,
              if z + 1 = max.z then ⟨x + 1, min.y, min.z⟩
                else ⟨x, min.y, z + 1⟩⟩ := by
  intro k
  induction k with
  | zero => intro m y h1 _ _; omega
  | succ k ih =>
    intro m y hk1 hky hminy
    have hmax : (⟨x, y, z⟩ : IVec3) ≠ max := by
      intro he
      have hyy : y = max.y := congrArg IVec3.y he
      omega
    have hstep := areaNext_mid world min max x y z (by omega) hmax
    rw [Nat.succ_add, areaRun_succ, hstep]
    dsimp only
    by_cases hk0 : k = 0
    · subst hk0
      have hy1 : y + 1 = max.y := by omega
      rw [if_pos hy1]
      simp [columnPoints]
    · have hy1 : y + 1 ≠ max.y := by omega
      rw [if_neg hy1, ih m (y + 1) (by omega) (by omega) (by omega)]
      simp [columnPoints]

/-- A freshly refreshed cache is valid. -/
theorem cacheOk_refresh (world : AreaWorld) (a : ℤ × ℤ) :
    CacheOk world (some (a, world.chunks a)) := by
  intro cp co h
  injection h with h2
  injection h2 with ha hb
  rw [← hb, ha]

/-- The empty cache is valid. -/
theorem cacheOk_none (world : AreaWorld) : CacheOk world none := by
  intro cp co h
  exact Option.noConfusion h

/-- Running the iterator through one whole column, starting from any valid
cache, yields the column's queries and ends at the next column's start with
the column's chunk cached. -/
theorem areaRun_col (world : AreaWorld) (min max : IVec3) (x z : ℤ)
    (c0 : Option ((ℤ × ℤ) × Option (IVec3 → ℕ × ℕ))) (hc : CacheOk world c0)
    (hy : min.y < max.y) (m : ℕ) :
    areaRun world ((max.y - min.y).toNat + m) ⟨c0, min, max, ⟨x, min.y, z⟩⟩ =
      (columnPoints x min.y z (max.y - min.y).toNat).map
        (fun p => lookupBlock world p) ++
        areaRun world m ⟨some (chunkXZ x z, world.chunks (chunkXZ x z)), min,
          max,
          if z + 1 = max.z then ⟨x + 1, min.y, min.z⟩
            else ⟨x, min.y, z + 1⟩⟩ := by
  have hmax : (⟨x, min.y, z⟩ : IVec3) ≠ max := by
    intro he
    have := congrArg IVec3.y he
    simp at this
    omega
  have hstep := areaNext_colStart world min max x z c0 hc hmax
  obtain ⟨K, hKeq⟩ : ∃ K, (max.y - min.y).toNat = K + 1 :=
    ⟨(max.y - min.y).toNat - 1, by omega⟩
  rw [hKeq]
  have harith : K + 1 + m = (K + m) + 1 := by omega
  rw [harith, areaRun_succ, hstep]
  dsimp only
  by_cases hK0 : K = 0
  · subst hK0
    have hy1 : min.y + 1 = max.y := by omega
    rw [if_pos hy1]
    simp [columnPoints]
  · have hy1 : min.y + 1 ≠ max.y := by omega
    rw [if_neg hy1,
      areaRun_colTail world min max x z K m (min.y + 1) (by omega) (by omega)
        (by omega)]
    simp [columnPoints]

/-- Running the iterator through `j` columns of one x-plane yields the
plane's queries column by column and ends at the next plane's start. -/
theorem areaRun_plane (world : AreaWorld) (min max : IVec3) (x : ℤ)
    (hy : min.y < max.y) :
    ∀ (j : ℕ) (z : ℤ) (c0 : Option ((ℤ × ℤ) × Option (IVec3 → ℕ × ℕ))),
      CacheOk world c0 → 1 ≤ j → (j : ℤ) = max.z - z → ∀ m : ℕ,
      areaRun world (j * (max.y - min.y).toNat + m) ⟨c0, min, max, ⟨x, min.y, z⟩⟩ =
        (planePoints x min.y z (max.y - min.y).toNat j).map
          (fun p => lookupBlock world p) ++
          areaRun world m
            ⟨some (chunkXZ x (max.z - 1), world.chunks (chunkXZ x (max.z - 1))),
              min, max, ⟨x + 1, min.y, min.z⟩⟩ := by
  intro j
  induction j with
  | zero => intro z c0 _ h1 _ _; omega
  | succ j ih =>
    intro z c0 hc hj1 hjz m
    by_cases hj0 : j = 0
    · subst hj0
      have hz1 : z = max.z - 1 := by omega
      subst hz1
      have harith : 1 * (max.y - min.y).toNat + m = (max.y - min.y).toNat + m := by
        omega
      rw [harith, areaRun_col world min max x (max.z - 1) c0 hc hy m]
      have hroll : (max.z - 1) + 1 = max.z := by omega
      rw [if_pos hroll]
      simp [planePoints]
    · have harith : (j + 1) * (max.y - min.y).toNat + m =
          (max.y - min.y).toNat + (j * (max.y - min.y).toNat + m) := by ring
      rw [harith, areaRun_col world min max x z c0 hc hy]
      have hroll : ¬(z + 1 = max.z) := by omega
      rw [if_neg hroll,
        ih (z + 1) _ (cacheOk_refresh world (chunkXZ x z)) (by omega)
          (by omega) m]
      simp [planePoints]

/-- Running the iterator through `i` whole x-planes from a plane start
yields the planes' queries in order. -/
theorem areaRun_top (world : AreaWorld) (min max : IVec3)
    (hy : min.y < max.y) (hz : min.z < max.z) :
    ∀ (i : ℕ) (x : ℤ) (c0 : Option ((ℤ × ℤ) × Option (IVec3 → ℕ × ℕ))),
      CacheOk world c0 →
      areaRun world (i * ((max.z - min.z).toNat * (max.y - min.y).toNat))
          ⟨c0, min, max, ⟨x, min.y, min.z⟩⟩ =
        (areaPoints x min.y min.z (max.y - min.y).toNat (max.z - min.z).toNat
          i).map (fun p => lookupBlock world p) := by
  intro i
  induction i with
  | zero =>
    intro x c0 _
    simp [areaPoints, areaRun]
  | succ i ih =>
    intro x c0 hc
    have harith : (i + 1) * ((max.z - min.z).toNat * (max.y - min.y).toNat) =
        (max.z - min.z).toNat * (max.y - min.y).toNat +
          i * ((max.z - min.z).toNat * (max.y - min.y).toNat) := by ring
    rw [harith,
      areaRun_plane world min max x hy (max.z - min.z).toNat min.z c0 hc
        (by omega) (by omega)
        (i * ((max.z - min.z).toNat * (max.y - min.y).toNat)),
      ih (x + 1) _ (cacheOk_refresh world (chunkXZ x (max.z - 1)))]
    simp [areaPoints]

/-- A column list has one position per step. -/
theorem columnPoints_length (x z : ℤ) :
    ∀ (k : ℕ) (y : ℤ), (columnPoints x y z k).length = k := by
  intro k
  induction k with
  | zero => intro y; rfl
  | succ k ih =>
    intro y
    simp only [columnPoints, List.length_cons, ih]

/-- A plane list has `j * ky` positions. -/
theorem planePoints_length (x minY : ℤ) (ky : ℕ) :
    ∀ (j : ℕ) (z : ℤ), (planePoints x minY z ky j).length = j * ky := by
  intro j
  induction j with
  | zero => intro z; simp [planePoints]
  | succ j ih =>
    intro z
    simp only [planePoints, List.length_append, columnPoints_length, ih]
    ring

/-- An area list has `i * (kz * ky)` positions. -/
theorem areaPoints_length (minY minZ : ℤ) (ky kz : ℕ) :
    ∀ (i : ℕ) (x : ℤ), (areaPoints x minY minZ ky kz i).length = i * (kz * ky) := by
  intro i
  induction i with
  | zero => intro x; simp [areaPoints]
  | succ i ih =>
    intro x
    simp only [areaPoints, List.length_append, planePoints_length, ih]
    ring

/-- Membership in a column list. -/
theorem mem_columnPoints (x z : ℤ) :
    ∀ (k : ℕ) (y : ℤ) (p : IVec3), p ∈ columnPoints x y z k ↔
      (p.x = x ∧ p.z = z ∧ y ≤ p.y ∧ p.y < y + k) := by
  intro k
  induction k with
  | zero =>
    intro y p
    simp only [columnPoints, List.not_mem_nil, false_iff]
    omega
  | succ k ih =>
    intro y p
    obtain ⟨px, py, pz⟩ := p
    simp only [columnPoints, List.mem_cons, ih, IVec3.mk.injEq]
    omega

/-- Membership in a plane list. -/
theorem mem_planePoints (x minY : ℤ) (ky : ℕ) :
    ∀ (j : ℕ) (z : ℤ) (p : IVec3), p ∈ planePoints x minY z ky j ↔
      (p.x = x ∧ minY ≤ p.y ∧ p.y < minY + ky ∧ z ≤ p.z ∧ p.z < z + j) := by
  intro j
  induction j with
  | zero =>
    intro z p
    simp only [planePoints, List.not_mem_nil, false_iff]
    omega
  | succ j ih =>
    intro z p
    simp only [planePoints, List.mem_append, mem_columnPoints, ih]
    omega

/-- Membership in an area list. -/
theorem mem_areaPoints (minY minZ : ℤ) (ky kz : ℕ) :
    ∀ (i : ℕ) (x : ℤ) (p : IVec3), p ∈ areaPoints x minY minZ ky kz i ↔
      (x ≤ p.x ∧ p.x < x + i ∧ minY ≤ p.y ∧ p.y < minY + ky ∧
        minZ ≤ p.z ∧ p.z < minZ + kz) := by
  intro i
  induction i with
  | zero =>
    intro x p
    simp only [areaPoints, List.not_mem_nil, false_iff]
    omega
  | succ i ih =>
    intro x p
    simp only [areaPoints, List.mem_append, mem_planePoints, ih]
    omega

/-- C9: On a non-empty range, running `iter_area_blocks(min, max)` for the
volume of the range yields exactly one `(id, metadata)` pair per position of
the cuboid `min ≤ p < max` (componentwise), in x-major / z / y-fastest
order, each pair being the chunk's `block_and_metadata` answer at that
position; positions in unloaded chunks yield `(0, 0)`. -/
theorem area_iterator_spec (world : AreaWorld) (min max : IVec3)
    (hx : min.x < max.x) (hy : min.y < max.y) (hz : min.z < max.z) :
    areaRun world
        ((max.x - min.x).toNat *
          ((max.z - min.z).toNat * (max.y - min.y).toNat))
        (iterAreaBlocks min max) =
      (areaPositions min max).map (fun p => lookupBlock world p) ∧
    (areaPositions min max).length =
      (max.x - min.x).toNat *
        ((max.z - min.z).toNat * (max.y - min.y).toNat) ∧
    (∀ p : IVec3, p ∈ areaPositions min max ↔
      (min.x ≤ p.x ∧ p.x < max.x ∧ min.y ≤ p.y ∧ p.y < max.y ∧
        min.z ≤ p.z ∧ p.z < max.z)) ∧
    (∀ p : IVec3, world.chunks (calcChunkPos p) = none →
      lookupBlock world p = (0, 0)) := by
  refine ⟨?_, ?_, ?_, ?_⟩
  · exact areaRun_top world min max hy hz (max.x - min.x).toNat min.x none
      (cacheOk_none world)
  · simp only [areaPositions, areaPoints_length]
  · intro p
    simp only [areaPositions, mem_areaPoints]
    omega
  · intro p h
    simp [lookupBlock, h]

/-- Witness: the C9 theorem applied to the one-chunk world on the concrete
range `[0,0,0) .. (1,1,2)`. -/
theorem area_iterator_spec_witness :
    ((0:ℤ) < 1) ∧
    (areaRun unitAreaWorld
        (((1:ℤ) - 0).toNat * (((2:ℤ) - 0).toNat * ((1:ℤ) - 0).toNat))
        (iterAreaBlocks ⟨0, 0, 0⟩ ⟨1, 1, 2⟩) =
      (areaPositions ⟨0, 0, 0⟩ ⟨1, 1, 2⟩).map
        (fun p => lookupBlock unitAreaWorld p) ∧
    (areaPositions ⟨0, 0, 0⟩ ⟨1, 1, 2⟩).length =
      ((1:ℤ) - 0).toNat * (((2:ℤ) - 0).toNat * ((1:ℤ) - 0).toNat) ∧
    (∀ p : IVec3, p ∈ areaPositions ⟨0, 0, 0⟩ ⟨1, 1, 2⟩ ↔
      ((0:ℤ) ≤ p.x ∧ p.x < 1 ∧ (0:ℤ) ≤ p.y ∧ p.y < 1 ∧
        (0:ℤ) ≤ p.z ∧ p.z < 2)) ∧
    (∀ p : IVec3, unitAreaWorld.chunks (calcChunkPos p) = none →
      lookupBlock unitAreaWorld p = (0, 0))) :=
  ⟨by decide,
    area_iterator_spec unitAreaWorld ⟨0, 0, 0⟩ ⟨1, 1, 2⟩ (by decide) (by decide)
      (by decide)⟩

end MC173
